import Mathlib

/-!
# FanControlComponent: the temperature monitor

A shallow embedding of `TempMonitor` (TempMonitor.h / TempMonitor.cpp) and the
properties of its polling and notification engine.

Modelling decisions.

* Temperatures are `float` in the source.  The monitor only ever compares them
  (`0 < t`, `a != b`, the ordering of `std::multiset<float>`), and the guard
  `0 < rVal.temp()` of `querySubSystems` rejects NaN together with every
  non-positive value, so every value that reaches the tables lies in a totally
  ordered set.  Temperatures are therefore integers here (for instance
  hundredths of a degree: 37.48 is `3748`); no arithmetic on them is modelled.
* `std::unordered_map<int, float>` is an association list with distinct keys;
  `std::multiset<float>` is an ascending list; `std::vector<TempMonitorListener*>`
  is a list of addresses.
* The calls a scan makes on its collaborators (`UiUpdater::updateSubSystemTemp`
  and the rounds of `TempMonitor::notifyNewMaxTemp`) are returned as a log.
* `*(--curTemps.end())` on an empty multiset is undefined behaviour; the model
  returns `none` there and the result of a scan is an `Option`.
-/

namespace FanControl

/-- A subsystem id (`int` in the source). -/
abbrev SubSystemId := Int

/-- A temperature; see the header for why an integer stands for the `float`. -/
abbrev Temp := Int

/-- The address of a `TempMonitorListener` object (listeners are stored as raw pointers). -/
abbrev Listener := Nat

/-- Modelled from the spec: the enumeration `GeneralConstants::ReturnCodes`, declared in
GeneralConstants.h, which is not among the sources; these are the four enumerators the
sources name. -/
inductive ReturnCodes where
  | SUCCESS
  | UNKNOWN_ERROR
  | TEMP_MONITOR_LISTENER_REG_FAILED
  | TEMP_MONITOR_LISTENER_UNREG_FAILED
  deriving DecidableEq, Repr

/-- What one call of `GetSubSystemTemp` on a stub yields: whether `status.ok()` holds and
the value of `rVal.temp()`. -/
structure Reading where
  ok : Bool
  temp : Temp
  deriving DecidableEq, Repr

/-- A call made by the monitor on one of its collaborators. -/
inductive Event where
  /-- The call `uiUpdater->updateSubSystemTemp(ssid, temp)`. -/
  | updateSubSystemTemp (ssid : SubSystemId) (temp : Temp)
  /-- One run of `TempMonitor::notifyNewMaxTemp`: `listener->notifyNewMaxTemp(temp)` is
  called on each of `receivers`, in this order. -/
  | notifyNewMaxTemp (receivers : List Listener) (temp : Temp)
  deriving DecidableEq, Repr

/-- The data members of `TempMonitor` (TempMonitor.h), without the thread, the mutexes,
the condition variable and the gRPC stubs. `uiUpdater` records whether the pointer is
non-null. -/
structure TempMonitor where
  subSystemIds : List SubSystemId
  uiUpdater : Bool
  subSystemTemps : List (SubSystemId × Temp)
  curTemps : List Temp
  curMaxTemp : Temp
  tempThreadKeepAlive : Bool
  tempThreadRun : Bool
  listeners : List Listener
  deriving DecidableEq, Repr

/-! ## The containers -/

/-- The value `std::unordered_map::find` reaches for key `k`, if any. -/
def mapFind (k : SubSystemId) : List (SubSystemId × Temp) → Option Temp
  | [] => none
  | (k', v) :: rest => if k' = k then some v else mapFind k rest

/-- The assignment `tbl[k] = v`: overwrites the entry of `k`, or adds one. -/
def mapAssign (k : SubSystemId) (v : Temp) : List (SubSystemId × Temp) → List (SubSystemId × Temp)
  | [] => [(k, v)]
  | (k', v') :: rest => if k' = k then (k, v) :: rest else (k', v') :: mapAssign k v rest

/-- The read `tbl[k]` of `std::unordered_map::operator[]`: an absent key is first
inserted with the value-initialised `0.0f`. Returns the table after the read and the
value read. -/
def mapIndex (k : SubSystemId) (tbl : List (SubSystemId × Temp)) :
    List (SubSystemId × Temp) × Temp :=
  match mapFind k tbl with
  | some v => (tbl, v)
  | none => (mapAssign k 0 tbl, 0)

/-- The statements `auto Itr{ curTemps.find(old) }; if (curTemps.end() != Itr) curTemps.erase(Itr);`:
one occurrence of `old` leaves the multiset, when there is one. -/
def multisetEraseOne (old : Temp) (cur : List Temp) : List Temp :=
  if old ∈ cur then cur.erase old else cur

/-- The call `curTemps.insert(temp)` on the ascending multiset (equal values are
indistinguishable, so the place among them does not matter). -/
def multisetInsert (temp : Temp) (cur : List Temp) : List Temp :=
  cur.orderedInsert (· ≤ ·) temp

/-! ## The monitor -/

/-- The constructor `TempMonitor::TempMonitor` with the default member initialisers. -/
def TempMonitor.ctor (ssIds : List SubSystemId) (updater : Bool) : TempMonitor :=
  { subSystemIds := ssIds
    uiUpdater := updater
    subSystemTemps := []
    curTemps := []
    curMaxTemp := 0
    tempThreadKeepAlive := false
    tempThreadRun := false
    listeners := [] }

/-- The flag update of the method `initialize` of `TempMonitor` (the name is reserved in
Lean; connections and thread creation are not modelled). -/
def initialise (m : TempMonitor) : TempMonitor × ReturnCodes :=
  ({ m with tempThreadKeepAlive := true }, ReturnCodes.SUCCESS)

/-- The method `TempMonitor::start`. -/
def start (m : TempMonitor) : TempMonitor × ReturnCodes :=
  ({ m with tempThreadRun := true }, ReturnCodes.UNKNOWN_ERROR)

/-- The method `TempMonitor::stop`. -/
def stop (m : TempMonitor) : TempMonitor × ReturnCodes :=
  ({ m with tempThreadRun := false }, ReturnCodes.SUCCESS)

/-- The method `TempMonitor::registerListener`. -/
def registerListener (m : TempMonitor) (listener : Listener) : TempMonitor × ReturnCodes :=
  if listener ∈ m.listeners then
    (m, ReturnCodes.TEMP_MONITOR_LISTENER_REG_FAILED)
  else
    ({ m with listeners := m.listeners ++ [listener] }, ReturnCodes.SUCCESS)

/-- The method `TempMonitor::unregisterListener`. -/
def unregisterListener (m : TempMonitor) (listener : Listener) : TempMonitor × ReturnCodes :=
  if listener ∈ m.listeners then
    ({ m with listeners := m.listeners.erase listener }, ReturnCodes.SUCCESS)
  else
    (m, ReturnCodes.TEMP_MONITOR_LISTENER_UNREG_FAILED)

/-- The method `TempMonitor::updateTempTables`, with the call it makes on the `UiUpdater`. -/
def updateTempTables (m : TempMonitor) (ssid : SubSystemId) (temp : Temp) :
    TempMonitor × List Event :=
  let idx := mapIndex ssid m.subSystemTemps
  if idx.2 ≠ temp then
    ({ m with
        subSystemTemps := mapAssign ssid temp idx.1
        curTemps := multisetInsert temp (multisetEraseOne idx.2 m.curTemps) },
      if m.uiUpdater then [Event.updateSubSystemTemp ssid temp] else [])
  else
    ({ m with subSystemTemps := idx.1 }, [])

/-- The method `TempMonitor::updateCurMaxTemp`; `none` when `curTemps` is empty, where
`*(--curTemps.end())` is undefined. -/
def updateCurMaxTemp (m : TempMonitor) : Option (TempMonitor × Bool) :=
  match m.curTemps.getLast? with
  | none => none
  | some maxTemp =>
    if maxTemp ≠ m.curMaxTemp then some ({ m with curMaxTemp := maxTemp }, true)
    else some (m, false)

/-- The method `TempMonitor::notifyNewMaxTemp`. -/
def notifyNewMaxTemp (m : TempMonitor) : List Event :=
  [Event.notifyNewMaxTemp m.listeners m.curMaxTemp]

/-- The body of the loop of `TempMonitor::querySubSystems` for one subsystem id, given
what its stub returned. -/
def queryBody (m : TempMonitor) (ssid : SubSystemId) (r : Reading) :
    Option (TempMonitor × List Event) :=
  if r.ok && decide (0 < r.temp) then
    match updateCurMaxTemp (updateTempTables m ssid r.temp).1 with
    | none => none
    | some (m2, true) => some (m2, (updateTempTables m ssid r.temp).2 ++ notifyNewMaxTemp m2)
    | some (m2, false) => some (m2, (updateTempTables m ssid r.temp).2)
  else
    some (m, [])

/-- The loop `for (auto ssid : subSystemIds)` of `TempMonitor::querySubSystems`; `rpc ssid`
is what `subSystemStubs[ssid]->GetSubSystemTemp` returns during this scan. -/
def queryLoop (rpc : SubSystemId → Reading) :
    List SubSystemId → TempMonitor → Option (TempMonitor × List Event)
  | [], m => some (m, [])
  | ssid :: rest, m =>
    match queryBody m ssid (rpc ssid) with
    | none => none
    | some (m1, log1) =>
      match queryLoop rpc rest m1 with
      | none => none
      | some (m2, log2) => some (m2, log1 ++ log2)

/-- The method `TempMonitor::querySubSystems`: one scan. -/
def querySubSystems (m : TempMonitor) (rpc : SubSystemId → Reading) :
    Option (TempMonitor × List Event) :=
  queryLoop rpc m.subSystemIds m

/-- A finite sequence of scans, one after the other, with the concatenated log. -/
def runScans : TempMonitor → List (SubSystemId → Reading) → Option (TempMonitor × List Event)
  | m, [] => some (m, [])
  | m, rpc :: rest =>
    match querySubSystems m rpc with
    | none => none
    | some (m1, log1) =>
      match runScans m1 rest with
      | none => none
      | some (m2, log2) => some (m2, log1 ++ log2)

/-- What a thread of `updateTempsThread` does when it evaluates the wait predicate. -/
inductive ThreadStep where
  /-- The predicate is false: the thread goes on to sleep in `tempThreadCond.wait`. -/
  | blocked
  /-- The loop is left (the `break` is taken). -/
  | exited
  /-- The thread ran `querySubSystems`, with this result. -/
  | scanned (result : Option (TempMonitor × List Event))
  deriving DecidableEq

/-- One evaluation of the predicate of `tempThreadCond.wait(lock, pred)` by a thread that
is awake (on entering the wait, or after a notification has woken it), and what follows:
with `tempThreadRun.load()` true the `if (!tempThreadKeepAlive.load()) break;` and the
scan, otherwise the thread sleeps. A thread that already sleeps does not evaluate
anything until it is notified; that is the step relation `threadStep` below. -/
def resumeWait (m : TempMonitor) (rpc : SubSystemId → Reading) : ThreadStep :=
  if m.tempThreadRun then
    if !m.tempThreadKeepAlive then ThreadStep.exited
    else ThreadStep.scanned (querySubSystems m rpc)
  else ThreadStep.blocked

/-- The flag updates of the destructor `TempMonitor::~TempMonitor` when the thread is
joinable: `stop(); tempThreadKeepAlive.store(false); start();`. -/
def dtorFlags (m : TempMonitor) : TempMonitor :=
  (start { (stop m).1 with tempThreadKeepAlive := false }).1

/-! ## The poll thread and the destructor, step by step

`tempThreadCond.wait(lock, pred)` is `while (!pred()) wait(lock);`. The poll thread holds
`tempThreadMux` from the predicate test until `wait(lock)` puts it to sleep, but `start()`
and `stop()` never take that mutex, so their stores and the `notify_one` can fall between
the two. `notify_one` wakes a thread that sleeps in `wait(lock)` and does nothing
otherwise. Spurious wake-ups, which the standard allows but does not promise, are not
modelled. -/

/-- Where the thread of `TempMonitor::updateTempsThread` stands. -/
inductive ThreadPc where
  /-- About to evaluate `while( tempThreadKeepAlive.load() )`. -/
  | whileTest
  /-- Holding the lock, about to evaluate the predicate `tempThreadRun.load()`. -/
  | predTest
  /-- The predicate was false; about to call `wait(lock)`. -/
  | waitCall
  /-- Asleep inside `wait(lock)` until notified. -/
  | asleep
  /-- The predicate was true; about to evaluate `if (!tempThreadKeepAlive.load())`. -/
  | breakTest
  /-- About to run `querySubSystems()` and the sleep of the interval. -/
  | scanning
  /-- The thread function has returned. -/
  | exited
  deriving DecidableEq, Repr

/-- Where the caller of `TempMonitor::~TempMonitor` stands (the thread is joinable). -/
inductive DtorPc where
  /-- About to call `stop()`. -/
  | callStop
  /-- About to run `tempThreadKeepAlive.store(false)`. -/
  | storeKeepAlive
  /-- In `start()`, about to run `tempThreadRun.store(true)`. -/
  | startStore
  /-- In `start()`, about to run `tempThreadCond.notify_one()`. -/
  | startNotify
  /-- In `tempThread.join()`. -/
  | join
  /-- The destructor has returned. -/
  | done
  deriving DecidableEq, Repr

/-- A monitor with its poll thread and a destructor call in progress. -/
structure Teardown where
  mon : TempMonitor
  thread : ThreadPc
  dtor : DtorPc
  deriving DecidableEq, Repr

/-- Who takes the next step. -/
inductive Actor where
  | pollThread
  | destructor
  deriving DecidableEq, Repr

/-- One step of the poll thread (`updateTempsThread`); `none` when it cannot move: asleep,
returned, or a scan without a result. -/
def threadStep (rpc : SubSystemId → Reading) (s : Teardown) : Option Teardown :=
  match s.thread with
  | ThreadPc.whileTest =>
    some { s with thread := if s.mon.tempThreadKeepAlive then ThreadPc.predTest
                            else ThreadPc.exited }
  | ThreadPc.predTest =>
    some { s with thread := if s.mon.tempThreadRun then ThreadPc.breakTest
                            else ThreadPc.waitCall }
  | ThreadPc.waitCall => some { s with thread := ThreadPc.asleep }
  | ThreadPc.asleep => none
  | ThreadPc.breakTest =>
    some { s with thread := if !s.mon.tempThreadKeepAlive then ThreadPc.exited
                            else ThreadPc.scanning }
  | ThreadPc.scanning =>
    match querySubSystems s.mon rpc with
    | none => none
    | some (m1, _) => some { s with mon := m1, thread := ThreadPc.whileTest }
  | ThreadPc.exited => none

/-- One step of the destructor `stop(); tempThreadKeepAlive.store(false); start();
tempThread.join();`; `none` when it cannot move: `join` waits for the thread, or the
destructor has returned. -/
def dtorStep (s : Teardown) : Option Teardown :=
  match s.dtor with
  | DtorPc.callStop => some { s with mon := (stop s.mon).1, dtor := DtorPc.storeKeepAlive }
  | DtorPc.storeKeepAlive =>
    some { s with mon := { s.mon with tempThreadKeepAlive := false }, dtor := DtorPc.startStore }
  | DtorPc.startStore => some { s with mon := (start s.mon).1, dtor := DtorPc.startNotify }
  | DtorPc.startNotify =>
    some { s with
      thread := if s.thread = ThreadPc.asleep then ThreadPc.predTest else s.thread
      dtor := DtorPc.join }
  | DtorPc.join => if s.thread = ThreadPc.exited then some { s with dtor := DtorPc.done } else none
  | DtorPc.done => none

/-- The steps of a schedule, in order; `none` when an actor is scheduled that cannot
move. -/
def runSchedule (rpc : SubSystemId → Reading) : List Actor → Teardown → Option Teardown
  | [], s => some s
  | Actor.pollThread :: rest, s =>
    match threadStep rpc s with
    | none => none
    | some s1 => runSchedule rpc rest s1
  | Actor.destructor :: rest, s =>
    match dtorStep s with
    | none => none
    | some s1 => runSchedule rpc rest s1

/-- The monitor of `TEST(TempMonitorUT, initialize)` right after `tm.initialize()`: the
poll thread has just been created, and the destructor is about to run. -/
def utTeardown : Teardown :=
  { mon := (initialise (TempMonitor.ctor [1] false)).1
    thread := ThreadPc.whileTest
    dtor := DtorPc.callStop }

/-! ## Observations on a state and on a log -/

/-- The values stored in the table, one per entry. -/
def tableValues (m : TempMonitor) : List Temp := m.subSystemTemps.map Prod.snd

/-- The values delivered to listener `l` by the calls of a log, in order. -/
def delivered (l : Listener) : List Event → List Temp
  | [] => []
  | Event.notifyNewMaxTemp receivers temp :: rest =>
    if l ∈ receivers then temp :: delivered l rest else delivered l rest
  | Event.updateSubSystemTemp _ _ :: rest => delivered l rest

/-- The values of the rounds of `notifyNewMaxTemp` in a log, in order. -/
def notifications : List Event → List Temp
  | [] => []
  | Event.notifyNewMaxTemp _ temp :: rest => temp :: notifications rest
  | Event.updateSubSystemTemp _ _ :: rest => notifications rest

/-- A reading the scan accepts: `status.ok() && ( 0 < rVal.temp() )`. -/
def Reading.valid (r : Reading) : Bool := r.ok && decide (0 < r.temp)

/-- The states a monitor can be in: between two calls of its methods, and between two
passes of the loop of `querySubSystems` (`body`). -/
inductive Reachable : TempMonitor → Prop where
  | ctor (ssIds : List SubSystemId) (updater : Bool) : Reachable (TempMonitor.ctor ssIds updater)
  | initialise {m : TempMonitor} : Reachable m → Reachable (initialise m).1
  | start {m : TempMonitor} : Reachable m → Reachable (start m).1
  | stop {m : TempMonitor} : Reachable m → Reachable (stop m).1
  | registerListener {m : TempMonitor} (l : Listener) :
      Reachable m → Reachable (registerListener m l).1
  | unregisterListener {m : TempMonitor} (l : Listener) :
      Reachable m → Reachable (unregisterListener m l).1
  | scan {m m1 : TempMonitor} {log : List Event} (rpc : SubSystemId → Reading) :
      Reachable m → querySubSystems m rpc = some (m1, log) → Reachable m1
  | body {m m1 : TempMonitor} {log : List Event} (ssid : SubSystemId) (r : Reading) :
      Reachable m → ssid ∈ m.subSystemIds → queryBody m ssid r = some (m1, log) →
      Reachable m1

/-- The invariant of the tables: `curTemps` is ascending and holds the values of the
table, the keys of the table are distinct subsystem ids of the monitor, every stored value
is positive, `curMaxTemp` is the last element of `curTemps` (or still `0`), and no listener
is registered twice. -/
structure Inv (m : TempMonitor) : Prop where
  sorted : m.curTemps.Sorted (· ≤ ·)
  perm : m.curTemps.Perm (tableValues m)
  keys : (m.subSystemTemps.map Prod.fst).Nodup
  known : ∀ e ∈ m.subSystemTemps, e.1 ∈ m.subSystemIds
  pos : ∀ e ∈ m.subSystemTemps, 0 < e.2
  cached : m.curTemps.getLast?.getD 0 = m.curMaxTemp
  nodup : m.listeners.Nodup

/-- The members a scan never writes. -/
structure Frame (m m1 : TempMonitor) : Prop where
  ids : m1.subSystemIds = m.subSystemIds
  ui : m1.uiUpdater = m.uiUpdater
  keepAlive : m1.tempThreadKeepAlive = m.tempThreadKeepAlive
  run : m1.tempThreadRun = m.tempThreadRun
  listeners : m1.listeners = m.listeners

/-- The state the loop body leaves after an accepted reading: the tables of
`updateTempTables` and the greatest element `v` of the new multiset as `curMaxTemp`. -/
def accepted (m : TempMonitor) (ssid : SubSystemId) (temp v : Temp) : TempMonitor :=
  { (updateTempTables m ssid temp).1 with curMaxTemp := v }

/-- What `updateTempTables` establishes on an accepted (positive) reading in a state that
satisfies the invariant. -/
structure TablesAfter (m m1 : TempMonitor) (ssid : SubSystemId) (temp : Temp) : Prop where
  sorted : m1.curTemps.Sorted (· ≤ ·)
  perm : m1.curTemps.Perm (tableValues m1)
  keys : (m1.subSystemTemps.map Prod.fst).Nodup
  known : ∀ e ∈ m1.subSystemTemps, e.1 ∈ m1.subSystemIds
  pos : ∀ e ∈ m1.subSystemTemps, 0 < e.2
  nonempty : m1.curTemps ≠ []
  found : mapFind ssid m1.subSystemTemps = some temp
  others : ∀ k, k ≠ ssid → mapFind k m1.subSystemTemps = mapFind k m.subSystemTemps

/-- What the loop body logs, in any state: nothing when the reading is not accepted or the
maximum stays, and otherwise one round of `notifyNewMaxTemp` with the new `curMaxTemp`,
delivered to the registered listeners. -/
structure BodyLog (m m1 : TempMonitor) (r : Reading) (log : List Event) : Prop where
  frame : Frame m m1
  rounds : (notifications log = [] ∧ m1.curMaxTemp = m.curMaxTemp) ∨
    (notifications log = [m1.curMaxTemp] ∧ m1.curMaxTemp ≠ m.curMaxTemp ∧ r.valid = true)
  registered : ∀ l ∈ m.listeners, delivered l log = notifications log
  absent : ∀ l, l ∉ m.listeners → delivered l log = []

/-- What a run of the loop logs, in any state. -/
structure LoopLog (rpc : SubSystemId → Reading) (ids : List SubSystemId) (m m1 : TempMonitor)
    (log : List Event) : Prop where
  frame : Frame m m1
  count : (notifications log).length ≤ (ids.filter (fun i => (rpc i).valid)).length
  last : (notifications log = [] ∧ m1.curMaxTemp = m.curMaxTemp) ∨
    (notifications log).getLast? = some m1.curMaxTemp
  registered : ∀ l ∈ m.listeners, delivered l log = notifications log
  absent : ∀ l, l ∉ m.listeners → delivered l log = []

/-- The listeners are up to date with respect to a log: either the table is still empty
and no round of `notifyNewMaxTemp` has happened, or the last round carried `curMaxTemp`. -/
def Notified (m : TempMonitor) (log : List Event) : Prop :=
  (m.subSystemTemps = [] ∧ notifications log = []) ∨
    (notifications log).getLast? = some m.curMaxTemp

/-! ## A test scenario (TempMonitorUT.cpp, CheckMaxTempNotification) -/

/-- The answers of five subsystems with the given unit-test temperatures (a subsystem
that was never set answers `0`, like `unitTestTemp{ 0.0f }`). -/
def utRpc (t1 t2 t3 t4 t5 : Temp) : SubSystemId → Reading := fun ssid =>
  if ssid = 1 then ⟨true, t1⟩ else if ssid = 2 then ⟨true, t2⟩ else if ssid = 3 then ⟨true, t3⟩
  else if ssid = 4 then ⟨true, t4⟩ else if ssid = 5 then ⟨true, t5⟩ else ⟨false, 0⟩

/-- The monitor of the test, with the listener at address `100` registered. -/
def utMonitor : TempMonitor :=
  (registerListener (initialise (TempMonitor.ctor [1, 2, 3, 4, 5] false)).1 100).1

/-- The answers of the subsystems in the seven steps of the test, in order. -/
def utScans : List (SubSystemId → Reading) :=
  [utRpc 3748 0 0 0 0, utRpc 3748 3700 0 0 0, utRpc 3748 3700 3700 0 0,
    utRpc 3748 3700 3700 3700 0, utRpc 3748 4000 3700 3700 0, utRpc 3748 3700 3700 3700 0,
    utRpc 3748 3700 3700 3700 7500]

/-- The monitor of the test after its first five steps: subsystem `2` holds the maximum
`40.00` alone. -/
def utMonitorAt40 : TempMonitor :=
  { subSystemIds := [1, 2, 3, 4, 5]
    uiUpdater := false
    subSystemTemps := [(1, 3748), (2, 4000), (3, 3700), (4, 3700)]
    curTemps := [3700, 3700, 3748, 4000]
    curMaxTemp := 4000
    tempThreadKeepAlive := true
    tempThreadRun := false
    listeners := [100] }

/-- Specification side of the table: the most recent valid reading of subsystem `i` in
a sequence of scans (the head of the list is the first scan), if `i` is one of the
monitor's subsystems and has given a valid reading at all. -/
def lastValidReading (ssIds : List SubSystemId) :
    List (SubSystemId → Reading) → SubSystemId → Option Temp
  | [], _ => none
  | rpc :: rest, i =>
    match lastValidReading ssIds rest i with
    | some t => some t
    | none => if i ∈ ssIds ∧ (rpc i).valid = true then some (rpc i).temp else none

/-! ## Lemmas on the containers -/

theorem mapFind_eq_none_iff (k : SubSystemId) (tbl : List (SubSystemId × Temp)) :
    mapFind k tbl = none ↔ k ∉ tbl.map Prod.fst := by
  induction tbl with
  | nil => simp [mapFind]
  | cons e rest ih =>
    obtain ⟨k', v⟩ := e
    by_cases h : k' = k
    · simp [mapFind, h]
    · simp [mapFind, h, ih, Ne.symm h]

theorem mem_of_mapFind {k : SubSystemId} {v : Temp} {tbl : List (SubSystemId × Temp)}
    (h : mapFind k tbl = some v) : (k, v) ∈ tbl := by
  induction tbl with
  | nil => simp [mapFind] at h
  | cons e rest ih =>
    obtain ⟨k', v'⟩ := e
    by_cases hk : k' = k
    · simp [mapFind, hk] at h
      simp [hk, h]
    · simp [mapFind, hk] at h
      exact List.mem_cons_of_mem _ (ih h)

theorem mapFind_of_mem {k : SubSystemId} {v : Temp} {tbl : List (SubSystemId × Temp)}
    (hn : (tbl.map Prod.fst).Nodup) (h : (k, v) ∈ tbl) : mapFind k tbl = some v := by
  induction tbl with
  | nil => simp at h
  | cons e rest ih =>
    obtain ⟨k', v'⟩ := e
    simp only [List.map_cons, List.nodup_cons] at hn
    rcases List.mem_cons.mp h with h1 | h1
    · cases h1
      simp [mapFind]
    · have hk : k' ≠ k := by
        intro hk
        subst hk
        exact hn.1 (List.mem_map.mpr ⟨(k', v), h1, rfl⟩)
      simp [mapFind, hk, ih hn.2 h1]

theorem mapFind_mapAssign_self (k : SubSystemId) (v : Temp) (tbl : List (SubSystemId × Temp)) :
    mapFind k (mapAssign k v tbl) = some v := by
  induction tbl with
  | nil => simp [mapAssign, mapFind]
  | cons e rest ih =>
    obtain ⟨k', v'⟩ := e
    by_cases hk : k' = k
    · simp [mapAssign, mapFind, hk]
    · simp [mapAssign, mapFind, hk, ih]

theorem mapFind_mapAssign_ne {k k2 : SubSystemId} (v : Temp) (tbl : List (SubSystemId × Temp))
    (h : k2 ≠ k) : mapFind k2 (mapAssign k v tbl) = mapFind k2 tbl := by
  induction tbl with
  | nil => simp [mapAssign, mapFind, Ne.symm h]
  | cons e rest ih =>
    obtain ⟨k', v'⟩ := e
    by_cases hk : k' = k
    · subst hk
      simp [mapAssign, mapFind, Ne.symm h]
    · by_cases hk2 : k' = k2
      · subst hk2
        simp [mapAssign, mapFind, hk]
      · simp [mapAssign, mapFind, hk, hk2, ih]

theorem mapAssign_mapAssign (k : SubSystemId) (v w : Temp) (tbl : List (SubSystemId × Temp)) :
    mapAssign k v (mapAssign k w tbl) = mapAssign k v tbl := by
  induction tbl with
  | nil => simp [mapAssign]
  | cons e rest ih =>
    obtain ⟨k', v'⟩ := e
    by_cases hk : k' = k
    · simp [mapAssign, hk]
    · simp [mapAssign, hk, ih]

theorem mapAssign_absent {k : SubSystemId} (v : Temp) {tbl : List (SubSystemId × Temp)}
    (h : mapFind k tbl = none) : mapAssign k v tbl = tbl ++ [(k, v)] := by
  induction tbl with
  | nil => simp [mapAssign]
  | cons e rest ih =>
    obtain ⟨k', v'⟩ := e
    by_cases hk : k' = k
    · simp [mapFind, hk] at h
    · simp only [mapFind, hk, if_false] at h
      simp [mapAssign, hk, ih h]

theorem mapAssign_keys_present {k : SubSystemId} (v : Temp) {old : Temp}
    {tbl : List (SubSystemId × Temp)} (h : mapFind k tbl = some old) :
    (mapAssign k v tbl).map Prod.fst = tbl.map Prod.fst := by
  induction tbl with
  | nil => simp [mapFind] at h
  | cons e rest ih =>
    obtain ⟨k', v'⟩ := e
    by_cases hk : k' = k
    · simp [mapAssign, hk]
    · simp only [mapFind, hk, if_false] at h
      simp [mapAssign, hk, ih h]

theorem mapAssign_values_present {k : SubSystemId} (v : Temp) {old : Temp}
    {tbl : List (SubSystemId × Temp)} (h : mapFind k tbl = some old) :
    ((mapAssign k v tbl).map Prod.snd).Perm (v :: (tbl.map Prod.snd).erase old) := by
  induction tbl with
  | nil => simp [mapFind] at h
  | cons e rest ih =>
    obtain ⟨k', v'⟩ := e
    by_cases hk : k' = k
    · simp [mapFind, hk] at h
      simp [mapAssign, hk, h]
    · simp only [mapFind, hk, if_false] at h
      by_cases hv : v' = old
      · subst hv
        simp only [mapAssign, hk, if_false, List.map_cons, List.erase_cons_head]
        have hp : (List.map Prod.snd rest).Perm (v' :: (List.map Prod.snd rest).erase v') :=
          List.perm_cons_erase (List.mem_map.mpr ⟨(k, v'), mem_of_mapFind h, rfl⟩)
        exact ((List.Perm.cons v' (ih h)).trans (List.Perm.swap _ _ _)).trans
          (List.Perm.cons v hp.symm)
      · simp only [mapAssign, hk, if_false, List.map_cons]
        rw [List.erase_cons_tail (by simpa using hv)]
        exact (List.Perm.cons v' (ih h)).trans (List.Perm.swap _ _ _)

theorem mem_mapAssign {k : SubSystemId} {v : Temp} {tbl : List (SubSystemId × Temp)}
    {e : SubSystemId × Temp} (h : e ∈ mapAssign k v tbl) : e = (k, v) ∨ e ∈ tbl := by
  induction tbl with
  | nil => simpa [mapAssign] using h
  | cons e' rest ih =>
    obtain ⟨k', v'⟩ := e'
    by_cases hk : k' = k
    · simp only [mapAssign, hk, if_true, List.mem_cons] at h
      rcases h with h | h
      · exact Or.inl h
      · exact Or.inr (List.mem_cons_of_mem _ h)
    · simp only [mapAssign, hk, if_false, List.mem_cons] at h
      rcases h with h | h
      · exact Or.inr (by simp [h])
      · rcases ih h with h1 | h1
        · exact Or.inl h1
        · exact Or.inr (List.mem_cons_of_mem _ h1)

theorem le_getLast_of_sorted {l : List Temp} (hs : l.Sorted (· ≤ ·)) {v : Temp}
    (h : l.getLast? = some v) : ∀ x ∈ l, x ≤ v := by
  induction l with
  | nil => simp at h
  | cons a rest ih =>
    cases rest with
    | nil =>
      simp at h
      intro x hx
      simp at hx
      rw [hx, h]
    | cons b rest2 =>
      have hs2 := List.sorted_cons.mp hs
      rw [List.getLast?_cons_cons] at h
      intro x hx
      rcases List.mem_cons.mp hx with hx1 | hx1
      · subst hx1
        exact le_trans (hs2.1 b (List.mem_cons_self _ _)) (ih hs2.2 h b (List.mem_cons_self _ _))
      · exact ih hs2.2 h x hx1

theorem getLast_mem {l : List Temp} {v : Temp} (h : l.getLast? = some v) : v ∈ l :=
  List.mem_of_getLast?_eq_some h

/-! ## The steps of a scan -/

theorem updateTempTables_same {m : TempMonitor} {ssid : SubSystemId} {temp : Temp}
    (h : mapFind ssid m.subSystemTemps = some temp) :
    updateTempTables m ssid temp = (m, []) := by
  simp [updateTempTables, mapIndex, h]

theorem updateTempTables_changed {m : TempMonitor} {ssid : SubSystemId} {temp old : Temp}
    (h : mapFind ssid m.subSystemTemps = some old) (hne : old ≠ temp) :
    updateTempTables m ssid temp =
      ({ m with
          subSystemTemps := mapAssign ssid temp m.subSystemTemps
          curTemps := multisetInsert temp (multisetEraseOne old m.curTemps) },
        if m.uiUpdater then [Event.updateSubSystemTemp ssid temp] else []) := by
  simp [updateTempTables, mapIndex, h, hne]

theorem updateTempTables_new {m : TempMonitor} {ssid : SubSystemId} {temp : Temp}
    (h : mapFind ssid m.subSystemTemps = none) (hne : 0 ≠ temp) :
    updateTempTables m ssid temp =
      ({ m with
          subSystemTemps := mapAssign ssid temp m.subSystemTemps
          curTemps := multisetInsert temp (multisetEraseOne 0 m.curTemps) },
        if m.uiUpdater then [Event.updateSubSystemTemp ssid temp] else []) := by
  simp [updateTempTables, mapIndex, h, hne, mapAssign_mapAssign]

/-- The members `updateTempTables` never writes. -/
theorem updateTempTables_frame (m : TempMonitor) (ssid : SubSystemId) (temp : Temp) :
    (updateTempTables m ssid temp).1.subSystemIds = m.subSystemIds ∧
    (updateTempTables m ssid temp).1.uiUpdater = m.uiUpdater ∧
    (updateTempTables m ssid temp).1.curMaxTemp = m.curMaxTemp ∧
    (updateTempTables m ssid temp).1.tempThreadKeepAlive = m.tempThreadKeepAlive ∧
    (updateTempTables m ssid temp).1.tempThreadRun = m.tempThreadRun ∧
    (updateTempTables m ssid temp).1.listeners = m.listeners := by
  unfold updateTempTables
  dsimp only
  split <;> simp

theorem updateCurMaxTemp_eq {m : TempMonitor} {v : Temp} (h : m.curTemps.getLast? = some v) :
    updateCurMaxTemp m =
      some (if v ≠ m.curMaxTemp then ({ m with curMaxTemp := v }, true) else (m, false)) := by
  unfold updateCurMaxTemp
  rw [h]
  dsimp only
  split <;> rfl

/-- The loop body on an accepted reading, once the greatest element of the updated
multiset is known. -/
theorem queryBody_valid {m : TempMonitor} {ssid : SubSystemId} {r : Reading} {v : Temp}
    (hr : r.valid = true)
    (h : (updateTempTables m ssid r.temp).1.curTemps.getLast? = some v) :
    queryBody m ssid r =
      some (if v ≠ m.curMaxTemp then
          ({ (updateTempTables m ssid r.temp).1 with curMaxTemp := v },
            (updateTempTables m ssid r.temp).2 ++ [Event.notifyNewMaxTemp m.listeners v])
        else ((updateTempTables m ssid r.temp).1, (updateTempTables m ssid r.temp).2)) := by
  have hf := updateTempTables_frame m ssid r.temp
  unfold Reading.valid at hr
  unfold queryBody
  rw [if_pos hr, updateCurMaxTemp_eq h, hf.2.2.1]
  by_cases hv : v = m.curMaxTemp
  · simp [hv]
  · simp [hv, notifyNewMaxTemp, hf.2.2.2.2.2]

theorem queryBody_invalid {m : TempMonitor} {ssid : SubSystemId} {r : Reading}
    (hr : r.valid = false) : queryBody m ssid r = some (m, []) := by
  unfold Reading.valid at hr
  unfold queryBody
  rw [if_neg (by simp [hr])]

theorem multisetEraseOne_absent {old : Temp} {cur : List Temp} (h : old ∉ cur) :
    multisetEraseOne old cur = cur := by
  simp [multisetEraseOne, h]

theorem multisetEraseOne_present {old : Temp} {cur : List Temp} (h : old ∈ cur) :
    multisetEraseOne old cur = cur.erase old := by
  simp [multisetEraseOne, h]

theorem multisetInsert_ne_nil (temp : Temp) (cur : List Temp) : multisetInsert temp cur ≠ [] := by
  intro h
  have hp := List.perm_orderedInsert (· ≤ ·) temp cur
  unfold multisetInsert at h
  rw [h] at hp
  exact (List.cons_ne_nil _ _) hp.symm.eq_nil

theorem zero_not_mem_curTemps {m : TempMonitor} (hi : Inv m) : (0 : Temp) ∉ m.curTemps := by
  intro h0
  have h1 : (0 : Temp) ∈ tableValues m := hi.perm.mem_iff.mp h0
  obtain ⟨e, he, he0⟩ := List.mem_map.mp h1
  have hp := hi.pos e he
  rw [he0] at hp
  exact lt_irrefl _ hp

theorem tablesAfter_updateTempTables {m : TempMonitor} (hi : Inv m) {ssid : SubSystemId}
    {temp : Temp} (hs : ssid ∈ m.subSystemIds) (ht : 0 < temp) :
    TablesAfter m (updateTempTables m ssid temp).1 ssid temp := by
  cases hfind : mapFind ssid m.subSystemTemps with
  | none =>
    rw [updateTempTables_new hfind (ne_of_lt ht), multisetEraseOne_absent (zero_not_mem_curTemps hi)]
    have hk : ssid ∉ m.subSystemTemps.map Prod.fst := (mapFind_eq_none_iff _ _).mp hfind
    refine ⟨?_, ?_, ?_, ?_, ?_, multisetInsert_ne_nil _ _, mapFind_mapAssign_self _ _ _, ?_⟩
    · exact hi.sorted.orderedInsert temp _
    · dsimp only [tableValues]
      rw [mapAssign_absent temp hfind, List.map_append]
      refine (List.perm_orderedInsert (· ≤ ·) temp m.curTemps).trans ?_
      exact (List.Perm.cons temp hi.perm).trans (List.perm_append_singleton temp _).symm
    · dsimp only
      rw [mapAssign_absent temp hfind, List.map_append]
      exact List.Nodup.append hi.keys (by simp) (by simpa using hk)
    · intro e he
      rcases mem_mapAssign he with h1 | h1
      · rw [h1]; exact hs
      · exact hi.known e h1
    · intro e he
      rcases mem_mapAssign he with h1 | h1
      · rw [h1]; exact ht
      · exact hi.pos e h1
    · intro k hk2
      exact mapFind_mapAssign_ne _ _ hk2
  | some old =>
    have hmem : (ssid, old) ∈ m.subSystemTemps := mem_of_mapFind hfind
    have hold : old ∈ m.curTemps :=
      hi.perm.mem_iff.mpr (List.mem_map.mpr ⟨(ssid, old), hmem, rfl⟩)
    by_cases hne : old = temp
    · subst hne
      rw [updateTempTables_same hfind]
      exact ⟨hi.sorted, hi.perm, hi.keys, hi.known, hi.pos, List.ne_nil_of_mem hold, hfind,
        fun _ _ => rfl⟩
    · rw [updateTempTables_changed hfind hne, multisetEraseOne_present hold]
      refine ⟨?_, ?_, ?_, ?_, ?_, multisetInsert_ne_nil _ _, mapFind_mapAssign_self _ _ _, ?_⟩
      · exact List.Sorted.orderedInsert temp _ (hi.sorted.sublist (List.erase_sublist _ _))
      · dsimp only [tableValues]
        refine (List.perm_orderedInsert (· ≤ ·) temp _).trans ?_
        exact (List.Perm.cons temp (hi.perm.erase old)).trans
          (mapAssign_values_present temp hfind).symm
      · dsimp only
        rw [mapAssign_keys_present temp hfind]
        exact hi.keys
      · intro e he
        rcases mem_mapAssign he with h1 | h1
        · rw [h1]; exact hs
        · exact hi.known e h1
      · intro e he
        rcases mem_mapAssign he with h1 | h1
        · rw [h1]; exact ht
        · exact hi.pos e h1
      · intro k hk2
        exact mapFind_mapAssign_ne _ _ hk2

theorem Frame.refl (m : TempMonitor) : Frame m m := ⟨rfl, rfl, rfl, rfl, rfl⟩

theorem Frame.trans {m m1 m2 : TempMonitor} (h1 : Frame m m1) (h2 : Frame m1 m2) :
    Frame m m2 :=
  ⟨h2.ids.trans h1.ids, h2.ui.trans h1.ui, h2.keepAlive.trans h1.keepAlive,
    h2.run.trans h1.run, h2.listeners.trans h1.listeners⟩

theorem queryBody_accepted {m : TempMonitor} {ssid : SubSystemId} {r : Reading} {v : Temp}
    (hr : r.valid = true)
    (h : (updateTempTables m ssid r.temp).1.curTemps.getLast? = some v) :
    queryBody m ssid r =
      some (accepted m ssid r.temp v,
        (updateTempTables m ssid r.temp).2 ++
          if v ≠ m.curMaxTemp then [Event.notifyNewMaxTemp m.listeners v] else []) := by
  rw [queryBody_valid hr h]
  by_cases hv : v = m.curMaxTemp
  · have hf := (updateTempTables_frame m ssid r.temp).2.2.1
    have he : accepted m ssid r.temp v = (updateTempTables m ssid r.temp).1 := by
      unfold accepted
      rw [hv, ← hf]
    rw [he, if_neg (not_not.mpr hv), if_neg (not_not.mpr hv), List.append_nil]
  · simp [hv, accepted]

theorem frame_accepted (m : TempMonitor) (ssid : SubSystemId) (temp v : Temp) :
    Frame m (accepted m ssid temp v) := by
  have hf := updateTempTables_frame m ssid temp
  exact ⟨hf.1, hf.2.1, hf.2.2.2.1, hf.2.2.2.2.1, hf.2.2.2.2.2⟩

theorem inv_accepted {m : TempMonitor} (hi : Inv m) {ssid : SubSystemId} {temp v : Temp}
    (hs : ssid ∈ m.subSystemIds) (ht : 0 < temp)
    (h : (updateTempTables m ssid temp).1.curTemps.getLast? = some v) :
    Inv (accepted m ssid temp v) := by
  have ta := tablesAfter_updateTempTables hi hs ht
  have hf := updateTempTables_frame m ssid temp
  refine ⟨ta.sorted, ta.perm, ta.keys, ta.known, ta.pos, ?_, ?_⟩
  · show (updateTempTables m ssid temp).1.curTemps.getLast?.getD 0 = v
    rw [h]
    rfl
  · show (updateTempTables m ssid temp).1.listeners.Nodup
    rw [hf.2.2.2.2.2]
    exact hi.nodup

theorem exists_getLast_of_ne_nil {l : List Temp} (h : l ≠ []) : ∃ v, l.getLast? = some v := by
  cases hl : l.getLast? with
  | none => exact absurd (List.getLast?_eq_none_iff.mp hl) h
  | some v => exact ⟨v, rfl⟩

theorem valid_pos {r : Reading} (hr : r.valid = true) : 0 < r.temp := by
  unfold Reading.valid at hr
  simp at hr
  exact hr.2

/-- In a state that satisfies the invariant the loop body returns, and what it returns
satisfies the invariant again. -/
theorem queryBody_inv {m : TempMonitor} (hi : Inv m) {ssid : SubSystemId}
    (hs : ssid ∈ m.subSystemIds) (r : Reading) :
    ∃ m1 log, queryBody m ssid r = some (m1, log) ∧ Inv m1 ∧ Frame m m1 := by
  cases hr : r.valid with
  | false => exact ⟨m, [], queryBody_invalid hr, hi, Frame.refl m⟩
  | true =>
    have ta := tablesAfter_updateTempTables hi hs (valid_pos hr)
    obtain ⟨v, hv⟩ := exists_getLast_of_ne_nil ta.nonempty
    exact ⟨_, _, queryBody_accepted hr hv, inv_accepted hi hs (valid_pos hr) hv,
      frame_accepted _ _ _ _⟩

theorem queryLoop_inv (rpc : SubSystemId → Reading) (ids : List SubSystemId) :
    ∀ m : TempMonitor, Inv m → (∀ i ∈ ids, i ∈ m.subSystemIds) →
      ∃ m1 log, queryLoop rpc ids m = some (m1, log) ∧ Inv m1 ∧ Frame m m1 := by
  induction ids with
  | nil => exact fun m hi _ => ⟨m, [], rfl, hi, Frame.refl m⟩
  | cons ssid rest ih =>
    intro m hi hsub
    obtain ⟨m1, log1, h1, hi1, hf1⟩ :=
      queryBody_inv hi (hsub ssid (List.mem_cons_self _ _)) (rpc ssid)
    have hsub1 : ∀ i ∈ rest, i ∈ m1.subSystemIds := by
      intro i hmem
      rw [hf1.ids]
      exact hsub i (List.mem_cons_of_mem _ hmem)
    obtain ⟨m2, log2, h2, hi2, hf2⟩ := ih m1 hi1 hsub1
    refine ⟨m2, log1 ++ log2, ?_, hi2, hf1.trans hf2⟩
    simp [queryLoop, h1, h2]

theorem querySubSystems_inv {m : TempMonitor} (hi : Inv m) (rpc : SubSystemId → Reading) :
    ∃ m1 log, querySubSystems m rpc = some (m1, log) ∧ Inv m1 ∧ Frame m m1 :=
  queryLoop_inv rpc m.subSystemIds m hi (fun _ h => h)

theorem runScans_inv (scans : List (SubSystemId → Reading)) :
    ∀ m : TempMonitor, Inv m →
      ∃ m1 log, runScans m scans = some (m1, log) ∧ Inv m1 ∧ Frame m m1 := by
  induction scans with
  | nil => exact fun m hi => ⟨m, [], rfl, hi, Frame.refl m⟩
  | cons rpc rest ih =>
    intro m hi
    obtain ⟨m1, log1, h1, hi1, hf1⟩ := querySubSystems_inv hi rpc
    obtain ⟨m2, log2, h2, hi2, hf2⟩ := ih m1 hi1
    refine ⟨m2, log1 ++ log2, ?_, hi2, hf1.trans hf2⟩
    simp [runScans, h1, h2]

theorem inv_ctor (ssIds : List SubSystemId) (updater : Bool) :
    Inv (TempMonitor.ctor ssIds updater) := by
  refine ⟨?_, ?_, ?_, ?_, ?_, ?_, ?_⟩ <;> simp [TempMonitor.ctor, tableValues]

theorem inv_of_reachable {m : TempMonitor} (h : Reachable m) : Inv m := by
  induction h with
  | ctor ssIds updater => exact inv_ctor ssIds updater
  | initialise _ ih => exact ⟨ih.sorted, ih.perm, ih.keys, ih.known, ih.pos, ih.cached, ih.nodup⟩
  | start _ ih => exact ⟨ih.sorted, ih.perm, ih.keys, ih.known, ih.pos, ih.cached, ih.nodup⟩
  | stop _ ih => exact ⟨ih.sorted, ih.perm, ih.keys, ih.known, ih.pos, ih.cached, ih.nodup⟩
  | @registerListener m l _ ih =>
    unfold FanControl.registerListener
    by_cases hl : l ∈ m.listeners
    · rw [if_pos hl]; exact ih
    · rw [if_neg hl]
      refine ⟨ih.sorted, ih.perm, ih.keys, ih.known, ih.pos, ih.cached, ?_⟩
      exact List.Nodup.append ih.nodup (by simp) (by simpa using hl)
  | @unregisterListener m l _ ih =>
    unfold FanControl.unregisterListener
    by_cases hl : l ∈ m.listeners
    · rw [if_pos hl]
      exact ⟨ih.sorted, ih.perm, ih.keys, ih.known, ih.pos, ih.cached, ih.nodup.erase l⟩
    · rw [if_neg hl]; exact ih
  | scan rpc _ hq ih =>
    obtain ⟨m1, log1, h1, hi1, _⟩ := querySubSystems_inv ih rpc
    rw [hq] at h1
    cases h1
    exact hi1
  | body ssid r _ hs hq ih =>
    obtain ⟨m1, log1, h1, hi1, _⟩ := queryBody_inv ih hs r
    rw [hq] at h1
    cases h1
    exact hi1

/-! ## Further lemmas -/

/-- Under the invariant `curMaxTemp` is `0` for an empty table and the greatest stored
value otherwise. -/
theorem inv_curMaxTemp {m : TempMonitor} (hi : Inv m) :
    (m.subSystemTemps = [] → m.curMaxTemp = 0) ∧
    (m.subSystemTemps ≠ [] →
      m.curMaxTemp ∈ tableValues m ∧ ∀ t ∈ tableValues m, t ≤ m.curMaxTemp) := by
  constructor
  · intro he
    have hp := hi.perm
    rw [tableValues, he] at hp
    have hc := hi.cached
    rw [hp.eq_nil] at hc
    exact hc.symm
  · intro hne
    have hcur : m.curTemps ≠ [] := by
      intro hc
      have hp := hi.perm
      rw [hc] at hp
      have hv : tableValues m = [] := hp.symm.eq_nil
      exact hne (List.map_eq_nil_iff.mp hv)
    obtain ⟨v, hv⟩ := exists_getLast_of_ne_nil hcur
    have hc := hi.cached
    rw [hv] at hc
    have hc2 : v = m.curMaxTemp := hc
    subst hc2
    exact ⟨hi.perm.mem_iff.mp (getLast_mem hv),
      fun t ht => le_getLast_of_sorted hi.sorted hv t (hi.perm.mem_iff.mpr ht)⟩

theorem queryLoop_skip {rpc : SubSystemId → Reading} {ssid : SubSystemId}
    (hr : (rpc ssid).valid = false) (ids : List SubSystemId) :
    ∀ m : TempMonitor,
      queryLoop rpc ids m = queryLoop rpc (ids.filter (fun i => decide (i ≠ ssid))) m := by
  induction ids with
  | nil => exact fun _ => rfl
  | cons i rest ih =>
    intro m
    by_cases hi : i = ssid
    · subst hi
      have hf : (i :: rest).filter (fun j => decide (j ≠ i)) =
          rest.filter (fun j => decide (j ≠ i)) := by
        simp [List.filter_cons]
      rw [hf, ← ih m, queryLoop, queryBody_invalid hr]
      cases h : queryLoop rpc rest m <;> simp [h]
    · have hf : (i :: rest).filter (fun j => decide (j ≠ ssid)) =
          i :: rest.filter (fun j => decide (j ≠ ssid)) := by
        simp [List.filter_cons, hi]
      rw [hf, queryLoop, queryLoop]
      cases queryBody m i (rpc i) with
      | none => rfl
      | some p => simp [ih p.1]

theorem updateCurMaxTemp_none_iff (m : TempMonitor) :
    updateCurMaxTemp m = none ↔ m.curTemps = [] := by
  unfold updateCurMaxTemp
  cases h : m.curTemps.getLast? with
  | none => simpa using List.getLast?_eq_none_iff.mp h
  | some v =>
    have hne : m.curTemps ≠ [] := fun hc => by simp [hc] at h
    by_cases hv : v = m.curMaxTemp <;> simp [hv, hne]

/-! ## What a scan logs -/

theorem notifications_append (a b : List Event) :
    notifications (a ++ b) = notifications a ++ notifications b := by
  induction a with
  | nil => rfl
  | cons e rest ih => cases e <;> simp [notifications, ih]

theorem delivered_append (l : Listener) (a b : List Event) :
    delivered l (a ++ b) = delivered l a ++ delivered l b := by
  induction a with
  | nil => rfl
  | cons e rest ih =>
    cases e with
    | updateSubSystemTemp ssid temp => simp [delivered, ih]
    | notifyNewMaxTemp receivers temp =>
      by_cases h : l ∈ receivers <;> simp [delivered, ih, h]

theorem updateTempTables_log (m : TempMonitor) (ssid : SubSystemId) (temp : Temp) :
    notifications (updateTempTables m ssid temp).2 = [] ∧
    ∀ l, delivered l (updateTempTables m ssid temp).2 = [] := by
  unfold updateTempTables
  dsimp only
  split
  · cases m.uiUpdater <;> simp [notifications, delivered]
  · simp [notifications, delivered]

theorem queryBody_log {m m1 : TempMonitor} {ssid : SubSystemId} {r : Reading}
    {log : List Event} (h : queryBody m ssid r = some (m1, log)) : BodyLog m m1 r log := by
  cases hr : r.valid with
  | false =>
    rw [queryBody_invalid hr] at h
    cases h
    exact ⟨Frame.refl m, Or.inl ⟨rfl, rfl⟩, fun _ _ => rfl, fun _ _ => rfl⟩
  | true =>
    cases hl : (updateTempTables m ssid r.temp).1.curTemps.getLast? with
    | none =>
      have hn : updateCurMaxTemp (updateTempTables m ssid r.temp).1 = none :=
        (updateCurMaxTemp_none_iff _).mpr (List.getLast?_eq_none_iff.mp hl)
      unfold Reading.valid at hr
      unfold queryBody at h
      rw [if_pos hr, hn] at h
      cases h
    | some v =>
      rw [queryBody_accepted hr hl] at h
      have hlog := updateTempTables_log m ssid r.temp
      by_cases hv : v = m.curMaxTemp
      · rw [if_neg (not_not.mpr hv), List.append_nil] at h
        cases h
        refine ⟨frame_accepted _ _ _ _, Or.inl ⟨hlog.1, hv⟩, ?_, ?_⟩
        · intro l _; rw [hlog.1, hlog.2 l]
        · intro l _; exact hlog.2 l
      · rw [if_pos hv] at h
        cases h
        refine ⟨frame_accepted _ _ _ _, Or.inr ⟨?_, hv, hr⟩, ?_, ?_⟩
        · rw [notifications_append, hlog.1]; rfl
        · intro l hmem
          rw [notifications_append, delivered_append, hlog.1, hlog.2 l]
          simp [delivered, notifications, hmem]
        · intro l hmem
          rw [delivered_append, hlog.2 l]
          simp [delivered, hmem]

theorem queryLoop_log (rpc : SubSystemId → Reading) (ids : List SubSystemId) :
    ∀ (m m1 : TempMonitor) (log : List Event),
      queryLoop rpc ids m = some (m1, log) → LoopLog rpc ids m m1 log := by
  induction ids with
  | nil =>
    intro m m1 log h
    simp only [queryLoop, Option.some.injEq, Prod.mk.injEq] at h
    obtain ⟨h1, h2⟩ := h
    subst h1 h2
    exact ⟨Frame.refl m, by simp [notifications], Or.inl ⟨rfl, rfl⟩, fun _ _ => rfl,
      fun _ _ => rfl⟩
  | cons ssid rest ih =>
    intro m m2 log h
    unfold queryLoop at h
    cases hb : queryBody m ssid (rpc ssid) with
    | none => rw [hb] at h; cases h
    | some p1 =>
      obtain ⟨m1, log1⟩ := p1
      rw [hb] at h
      dsimp only at h
      cases hl : queryLoop rpc rest m1 with
      | none => rw [hl] at h; cases h
      | some p2 =>
        obtain ⟨m2', log2⟩ := p2
        rw [hl] at h
        simp only [Option.some.injEq, Prod.mk.injEq] at h
        obtain ⟨h1, h2⟩ := h
        subst h1 h2
        have b := queryBody_log hb
        have t := ih m1 m2' log2 hl
        refine ⟨b.frame.trans t.frame, ?_, ?_, ?_, ?_⟩
        · rw [notifications_append, List.length_append]
          rcases b.rounds with ⟨hn, _⟩ | ⟨hn, _, hv⟩
          · rw [hn]
            have hle := t.count
            have hmono : (rest.filter (fun i => (rpc i).valid)).length ≤
                ((ssid :: rest).filter (fun i => (rpc i).valid)).length :=
              List.Sublist.length_le (List.Sublist.filter _ (List.sublist_cons_self _ _))
            simp only [List.length_nil, Nat.zero_add]
            exact hle.trans hmono
          · have hf : (ssid :: rest).filter (fun i => (rpc i).valid) =
                ssid :: rest.filter (fun i => (rpc i).valid) := by
              simp [List.filter_cons, hv]
            rw [hn, hf]
            have hle := t.count
            simp only [List.length_cons, List.length_nil]
            omega
        · rw [notifications_append]
          rcases t.last with ⟨hn2, hc2⟩ | hlast
          · rw [hn2, List.append_nil]
            rcases b.rounds with ⟨hn, hc⟩ | ⟨hn, _, _⟩
            · exact Or.inl ⟨hn, hc2.trans hc⟩
            · right
              rw [hn, hc2]
              rfl
          · right
            rw [List.getLast?_append, hlast]
            rfl
        · intro l hmem
          have hmem1 : l ∈ m1.listeners := by rw [b.frame.listeners]; exact hmem
          rw [delivered_append, notifications_append, b.registered l hmem,
            t.registered l hmem1]
        · intro l hmem
          have hmem1 : l ∉ m1.listeners := by rw [b.frame.listeners]; exact hmem
          rw [delivered_append, b.absent l hmem, t.absent l hmem1]
          rfl

/-! ## Scans that repeat the stored values, and scans that change one value -/

theorem queryBody_same {m : TempMonitor} (hi : Inv m) {ssid : SubSystemId} {r : Reading}
    (hr : r.valid = true) (hf : mapFind ssid m.subSystemTemps = some r.temp) :
    queryBody m ssid r = some (m, []) := by
  have hmem : r.temp ∈ m.curTemps :=
    hi.perm.mem_iff.mpr (List.mem_map.mpr ⟨(ssid, r.temp), mem_of_mapFind hf, rfl⟩)
  obtain ⟨v, hv⟩ := exists_getLast_of_ne_nil (List.ne_nil_of_mem hmem)
  have hc := hi.cached
  rw [hv] at hc
  have hvc : v = m.curMaxTemp := hc
  have h1 : (updateTempTables m ssid r.temp).1.curTemps.getLast? = some v := by
    rw [updateTempTables_same hf]
    exact hv
  rw [queryBody_valid hr h1, if_neg (not_not.mpr hvc), updateTempTables_same hf]

theorem queryLoop_unchanged {m : TempMonitor} (hi : Inv m) (rpc : SubSystemId → Reading)
    (ids : List SubSystemId)
    (h : ∀ k ∈ ids, (rpc k).valid = false ∨ mapFind k m.subSystemTemps = some (rpc k).temp) :
    queryLoop rpc ids m = some (m, []) := by
  induction ids with
  | nil => rfl
  | cons k rest ih =>
    have hb : queryBody m k (rpc k) = some (m, []) := by
      cases hv : (rpc k).valid with
      | false => exact queryBody_invalid hv
      | true =>
        rcases h k (List.mem_cons_self _ _) with h1 | h1
        · rw [hv] at h1; cases h1
        · exact queryBody_same hi hv h1
    have ht := ih (fun j hj => h j (List.mem_cons_of_mem _ hj))
    simp [queryLoop, hb, ht]

/-- How the loop body changes the table, in a state that satisfies the invariant. -/
theorem queryBody_table {m : TempMonitor} (hi : Inv m) {ssid : SubSystemId}
    (hs : ssid ∈ m.subSystemIds) {r : Reading} {m1 : TempMonitor} {log : List Event}
    (h : queryBody m ssid r = some (m1, log)) :
    (r.valid = true → mapFind ssid m1.subSystemTemps = some r.temp) ∧
    (∀ k, k ≠ ssid → mapFind k m1.subSystemTemps = mapFind k m.subSystemTemps) ∧
    (r.valid = false → m1 = m ∧ log = []) := by
  cases hr : r.valid with
  | false =>
    rw [queryBody_invalid hr] at h
    cases h
    exact ⟨fun hc => Bool.noConfusion hc, fun _ _ => rfl, fun _ => ⟨rfl, rfl⟩⟩
  | true =>
    have ta := tablesAfter_updateTempTables hi hs (valid_pos hr)
    obtain ⟨v, hv⟩ := exists_getLast_of_ne_nil ta.nonempty
    rw [queryBody_accepted hr hv] at h
    cases h
    exact ⟨fun _ => ta.found, ta.others, fun hc => Bool.noConfusion hc⟩

theorem queryLoop_single {m : TempMonitor} (hi : Inv m) (rpc : SubSystemId → Reading)
    {s : SubSystemId} (hs : s ∈ m.subSystemIds) {m1 : TempMonitor} {log1 : List Event}
    (hb : queryBody m s (rpc s) = some (m1, log1)) (ids : List SubSystemId)
    (hmem : s ∈ ids)
    (h : ∀ k ∈ ids, k ≠ s →
      (rpc k).valid = false ∨ mapFind k m.subSystemTemps = some (rpc k).temp) :
    queryLoop rpc ids m = some (m1, log1) := by
  induction ids with
  | nil => simp at hmem
  | cons k rest ih =>
    by_cases hk : k = s
    · subst hk
      obtain ⟨m1', log1', hb', hi1, _⟩ := queryBody_inv hi hs (rpc k)
      rw [hb] at hb'
      cases hb'
      have tb := queryBody_table hi hs hb
      have hrest : queryLoop rpc rest m1 = some (m1, []) := by
        apply queryLoop_unchanged hi1
        intro j hj
        by_cases hjk : j = k
        · subst hjk
          cases hv : (rpc j).valid with
          | false => exact Or.inl rfl
          | true => exact Or.inr (tb.1 hv)
        · rcases h j (List.mem_cons_of_mem _ hj) hjk with h1 | h1
          · exact Or.inl h1
          · exact Or.inr ((tb.2.1 j hjk).trans h1)
      simp [queryLoop, hb, hrest]
    · have hb0 : queryBody m k (rpc k) = some (m, []) := by
        cases hv : (rpc k).valid with
        | false => exact queryBody_invalid hv
        | true =>
          rcases h k (List.mem_cons_self _ _) hk with h1 | h1
          · rw [hv] at h1; cases h1
          · exact queryBody_same hi hv h1
      have hmem2 : s ∈ rest := by
        rcases List.mem_cons.mp hmem with h1 | h1
        · exact absurd h1.symm hk
        · exact h1
      have ht := ih hmem2 (fun j hj => h j (List.mem_cons_of_mem _ hj))
      simp [queryLoop, hb0, ht]

theorem queryLoop_table (rpc : SubSystemId → Reading) (ids : List SubSystemId) :
    ∀ (m m1 : TempMonitor) (log : List Event), Inv m → (∀ i ∈ ids, i ∈ m.subSystemIds) →
      queryLoop rpc ids m = some (m1, log) →
      ∀ i, mapFind i m1.subSystemTemps =
        if i ∈ ids ∧ (rpc i).valid = true then some (rpc i).temp
        else mapFind i m.subSystemTemps := by
  induction ids with
  | nil =>
    intro m m1 log _ _ h i
    simp only [queryLoop, Option.some.injEq, Prod.mk.injEq] at h
    rw [← h.1]
    simp
  | cons ssid rest ih =>
    intro m m2 log hi hsub h i
    have hs := hsub ssid (List.mem_cons_self _ _)
    obtain ⟨m1, log1, hb, hi1, hf1⟩ := queryBody_inv hi hs (rpc ssid)
    have hsub1 : ∀ j ∈ rest, j ∈ m1.subSystemIds := by
      intro j hj
      rw [hf1.ids]
      exact hsub j (List.mem_cons_of_mem _ hj)
    obtain ⟨m2', log2, hl, _, _⟩ := queryLoop_inv rpc rest m1 hi1 hsub1
    have he : queryLoop rpc (ssid :: rest) m = some (m2', log1 ++ log2) := by
      simp [queryLoop, hb, hl]
    rw [he] at h
    simp only [Option.some.injEq, Prod.mk.injEq] at h
    obtain ⟨h1, _⟩ := h
    subst h1
    have tb := queryBody_table hi hs hb
    rw [ih m1 m2' log2 hi1 hsub1 hl i]
    by_cases hir : i ∈ rest ∧ (rpc i).valid = true
    · rw [if_pos hir, if_pos ⟨List.mem_cons_of_mem _ hir.1, hir.2⟩]
    · rw [if_neg hir]
      by_cases his : i = ssid
      · subst his
        cases hv : (rpc i).valid with
        | true => rw [tb.1 hv]; simp
        | false =>
          rw [(tb.2.2 hv).1]
          simp
      · rw [tb.2.1 i his]
        have hn : ¬ (i ∈ ssid :: rest ∧ (rpc i).valid = true) := by
          rintro ⟨hm, hv⟩
          rcases List.mem_cons.mp hm with h1 | h1
          · exact his h1
          · exact hir ⟨h1, hv⟩
        rw [if_neg hn]

theorem runScans_table (scans : List (SubSystemId → Reading)) :
    ∀ (m m1 : TempMonitor) (log : List Event), Inv m → runScans m scans = some (m1, log) →
      ∀ i, mapFind i m1.subSystemTemps =
        match lastValidReading m.subSystemIds scans i with
        | some t => some t
        | none => mapFind i m.subSystemTemps := by
  induction scans with
  | nil =>
    intro m m1 log _ h i
    simp only [runScans, Option.some.injEq, Prod.mk.injEq] at h
    rw [← h.1]
    rfl
  | cons rpc rest ih =>
    intro m m2 log hi h i
    obtain ⟨m1, log1, hq, hi1, hf1⟩ := querySubSystems_inv hi rpc
    obtain ⟨m2', log2, hr, _, _⟩ := runScans_inv rest m1 hi1
    have he : runScans m (rpc :: rest) = some (m2', log1 ++ log2) := by
      simp [runScans, hq, hr]
    rw [he] at h
    simp only [Option.some.injEq, Prod.mk.injEq] at h
    obtain ⟨h1, _⟩ := h
    subst h1
    have h3 := ih m1 m2' log2 hi1 hr i
    rw [hf1.ids] at h3
    rw [h3, lastValidReading]
    cases lastValidReading m.subSystemIds rest i with
    | some t => rfl
    | none =>
      dsimp only
      rw [queryLoop_table rpc m.subSystemIds m m1 log1 hi (fun _ hj => hj) hq i]
      by_cases hc : i ∈ m.subSystemIds ∧ (rpc i).valid = true
      · rw [if_pos hc, if_pos hc]
      · rw [if_neg hc, if_neg hc]

theorem querySubSystems_notified {m m1 : TempMonitor} {log : List Event} (hi : Inv m)
    {rpc : SubSystemId → Reading} (h : querySubSystems m rpc = some (m1, log))
    {log0 : List Event} (hn : Notified m log0) : Notified m1 (log0 ++ log) := by
  obtain ⟨m1', log1', hq, hi1, _⟩ := querySubSystems_inv hi rpc
  rw [h] at hq
  cases hq
  have ll := queryLoop_log rpc m.subSystemIds m m1 log h
  unfold Notified
  rw [notifications_append]
  rcases ll.last with ⟨hnil, hsame⟩ | hlast
  · rw [hnil, List.append_nil]
    rcases hn with ⟨hempty, hnone⟩ | hn2
    · left
      refine ⟨?_, hnone⟩
      by_contra hne
      have hmax := (inv_curMaxTemp hi1).2 hne
      obtain ⟨e, he, hev⟩ := List.mem_map.mp hmax.1
      have hpos := hi1.pos e he
      rw [hev, hsame, (inv_curMaxTemp hi).1 hempty] at hpos
      exact lt_irrefl _ hpos
    · right
      rw [hsame]
      exact hn2
  · right
    rw [List.getLast?_append, hlast]
    rfl

theorem runScans_notified (scans : List (SubSystemId → Reading)) :
    ∀ (m m1 : TempMonitor) (log log0 : List Event), Inv m →
      runScans m scans = some (m1, log) → Notified m log0 → Notified m1 (log0 ++ log) := by
  induction scans with
  | nil =>
    intro m m1 log log0 _ h hn
    simp only [runScans, Option.some.injEq, Prod.mk.injEq] at h
    rw [← h.1, ← h.2, List.append_nil]
    exact hn
  | cons rpc rest ih =>
    intro m m2 log log0 hi h hn
    obtain ⟨m1, log1, hq, hi1, _⟩ := querySubSystems_inv hi rpc
    obtain ⟨m2', log2, hr, _, _⟩ := runScans_inv rest m1 hi1
    have he : runScans m (rpc :: rest) = some (m2', log1 ++ log2) := by
      simp [runScans, hq, hr]
    rw [he] at h
    simp only [Option.some.injEq, Prod.mk.injEq] at h
    obtain ⟨h1, h2⟩ := h
    subst h1 h2
    have h3 := ih m1 m2' log2 (log0 ++ log1) hi1 hr (querySubSystems_notified hi hq hn)
    rw [List.append_assoc] at h3
    exact h3

theorem runScans_log (scans : List (SubSystemId → Reading)) :
    ∀ (m m1 : TempMonitor) (log : List Event), runScans m scans = some (m1, log) →
      Frame m m1 ∧ (∀ l ∈ m.listeners, delivered l log = notifications log) := by
  induction scans with
  | nil =>
    intro m m1 log h
    simp only [runScans, Option.some.injEq, Prod.mk.injEq] at h
    rw [← h.1, ← h.2]
    exact ⟨Frame.refl m, fun _ _ => rfl⟩
  | cons rpc rest ih =>
    intro m m2 log h
    unfold runScans at h
    cases hq : querySubSystems m rpc with
    | none => rw [hq] at h; cases h
    | some p1 =>
      obtain ⟨m1, log1⟩ := p1
      rw [hq] at h
      dsimp only at h
      cases hr : runScans m1 rest with
      | none => rw [hr] at h; cases h
      | some p2 =>
        obtain ⟨m2', log2⟩ := p2
        rw [hr] at h
        simp only [Option.some.injEq, Prod.mk.injEq] at h
        obtain ⟨h1, h2⟩ := h
        subst h1 h2
        have ll := queryLoop_log rpc m.subSystemIds m m1 log1 hq
        have t := ih m1 m2' log2 hr
        refine ⟨ll.frame.trans t.1, ?_⟩
        intro l hl
        have hl1 : l ∈ m1.listeners := by rw [ll.frame.listeners]; exact hl
        rw [delivered_append, notifications_append, ll.registered l hl, t.2 l hl1]

theorem reachable_runScans (scans : List (SubSystemId → Reading)) :
    ∀ (m m1 : TempMonitor) (log : List Event), Reachable m →
      runScans m scans = some (m1, log) → Reachable m1 := by
  induction scans with
  | nil =>
    intro m m1 log hm h
    simp only [runScans, Option.some.injEq, Prod.mk.injEq] at h
    rw [← h.1]
    exact hm
  | cons rpc rest ih =>
    intro m m2 log hm h
    unfold runScans at h
    cases hq : querySubSystems m rpc with
    | none => rw [hq] at h; cases h
    | some p1 =>
      obtain ⟨m1, log1⟩ := p1
      rw [hq] at h
      dsimp only at h
      cases hr : runScans m1 rest with
      | none => rw [hr] at h; cases h
      | some p2 =>
        obtain ⟨m2', log2⟩ := p2
        rw [hr] at h
        simp only [Option.some.injEq, Prod.mk.injEq] at h
        rw [← h.1]
        exact ih m1 m2' log2 (Reachable.scan rpc hm hq) hr

theorem utMonitor_reachable : Reachable utMonitor :=
  Reachable.registerListener 100 (Reachable.initialise (Reachable.ctor [1, 2, 3, 4, 5] false))

theorem utMonitorAt40_reachable : Reachable utMonitorAt40 :=
  reachable_runScans (utScans.take 5) utMonitor utMonitorAt40
    [Event.notifyNewMaxTemp [100] 3748, Event.notifyNewMaxTemp [100] 4000]
    utMonitor_reachable (by decide)

theorem registerListener_ctor (ssIds : List SubSystemId) (updater : Bool) (l : Listener) :
    (registerListener (TempMonitor.ctor ssIds updater) l).1 =
      { TempMonitor.ctor ssIds updater with listeners := [l] } := by
  simp [registerListener, TempMonitor.ctor]

theorem mem_tableValues_iff {m : TempMonitor} (hi : Inv m) (t : Temp) :
    t ∈ tableValues m ↔ ∃ k, mapFind k m.subSystemTemps = some t := by
  constructor
  · intro h
    obtain ⟨e, he, het⟩ := List.mem_map.mp h
    refine ⟨e.1, mapFind_of_mem hi.keys ?_⟩
    rw [← het]
    exact he
  · rintro ⟨k, hk⟩
    exact List.mem_map.mpr ⟨(k, t), mem_of_mapFind hk, rfl⟩

/-! ## Properties of the monitor -/

/-- C1: for every list of subsystem ids and every finite sequence of scans run on the
freshly constructed monitor, the scans all complete, and in the state they leave
`curMaxTemp` is the greatest value stored in `subSystemTemps` when the table has an entry
and is still `0` when it has none. -/
theorem curMaxTemp_equals_table_maximum (ssIds : List SubSystemId) (updater : Bool)
    (scans : List (SubSystemId → Reading)) :
    ∃ m log, runScans (TempMonitor.ctor ssIds updater) scans = some (m, log) ∧
      (m.subSystemTemps = [] → m.curMaxTemp = 0) ∧
      (m.subSystemTemps ≠ [] →
        m.curMaxTemp ∈ tableValues m ∧ ∀ t ∈ tableValues m, t ≤ m.curMaxTemp) := by
  obtain ⟨m, log, hrun, hi, _⟩ := runScans_inv scans _ (inv_ctor ssIds updater)
  exact ⟨m, log, hrun, inv_curMaxTemp hi⟩

/-- C3: `registerListener l` returns `SUCCESS` exactly when `l` is not registered, and then
appends `l`; otherwise it returns `TEMP_MONITOR_LISTENER_REG_FAILED` and changes nothing.
`unregisterListener l` returns `SUCCESS` exactly when `l` is registered, and then removes
its entry; otherwise it returns `TEMP_MONITOR_LISTENER_UNREG_FAILED` and changes nothing.
Registering an absent listener and unregistering it again both succeed and give back the
original monitor. -/
theorem listener_registry_contract (m : TempMonitor) (l : Listener) :
    ((registerListener m l).2 = ReturnCodes.SUCCESS ↔ l ∉ m.listeners) ∧
    (l ∉ m.listeners →
      registerListener m l =
        ({ m with listeners := m.listeners ++ [l] }, ReturnCodes.SUCCESS)) ∧
    (l ∈ m.listeners →
      registerListener m l = (m, ReturnCodes.TEMP_MONITOR_LISTENER_REG_FAILED)) ∧
    ((unregisterListener m l).2 = ReturnCodes.SUCCESS ↔ l ∈ m.listeners) ∧
    (l ∈ m.listeners →
      unregisterListener m l =
        ({ m with listeners := m.listeners.erase l }, ReturnCodes.SUCCESS)) ∧
    (l ∈ m.listeners → m.listeners.Nodup → l ∉ (unregisterListener m l).1.listeners) ∧
    (l ∉ m.listeners →
      unregisterListener m l = (m, ReturnCodes.TEMP_MONITOR_LISTENER_UNREG_FAILED)) ∧
    (l ∉ m.listeners →
      (registerListener m l).2 = ReturnCodes.SUCCESS ∧
      unregisterListener (registerListener m l).1 l = (m, ReturnCodes.SUCCESS)) := by
  by_cases hl : l ∈ m.listeners
  · refine ⟨?_, fun h => absurd hl h, ?_, ?_, ?_, ?_, fun h => absurd hl h,
      fun h => absurd hl h⟩
    · simp [registerListener, hl]
    · intro _; simp [registerListener, hl]
    · simp [unregisterListener, hl]
    · intro _; simp [unregisterListener, hl]
    · intro _ hn
      simp only [unregisterListener, hl, if_true]
      exact fun hmem => (List.Nodup.mem_erase_iff hn).mp hmem |>.1 rfl
  · refine ⟨?_, ?_, fun h => absurd h hl, ?_, fun h => absurd h hl, fun h => absurd h hl,
      ?_, ?_⟩
    · simp [registerListener, hl]
    · intro _; simp [registerListener, hl]
    · simp [unregisterListener, hl]
    · intro _; simp [unregisterListener, hl]
    · intro _
      have he : (m.listeners ++ [l]).erase l = m.listeners := by
        rw [List.erase_append_right _ hl]
        simp
      simp [registerListener, unregisterListener, hl, he]

/-- C7: a read with a non-OK status or a value that is not strictly positive changes
nothing: the loop body returns the state as it was with no call on a listener or on the
per-reading observer, and the whole loop gives the same result as the loop over the ids
without that subsystem. -/
theorem invalid_reading_is_skipped (m : TempMonitor) (ssid : SubSystemId)
    (rpc : SubSystemId → Reading) (ids : List SubSystemId)
    (hr : (rpc ssid).ok = false ∨ (rpc ssid).temp ≤ 0) :
    queryBody m ssid (rpc ssid) = some (m, []) ∧
    queryLoop rpc ids m = queryLoop rpc (ids.filter (fun i => decide (i ≠ ssid))) m ∧
    querySubSystems m rpc =
      queryLoop rpc (m.subSystemIds.filter (fun i => decide (i ≠ ssid))) m := by
  have hv : (rpc ssid).valid = false := by
    unfold Reading.valid
    rcases hr with h | h
    · simp [h]
    · simp [not_lt.mpr h]
  exact ⟨queryBody_invalid hv, queryLoop_skip hv ids m, queryLoop_skip hv _ m⟩

theorem invalid_reading_is_skipped_witness :
    ((utRpc 3748 0 0 0 0 2).ok = false ∨ (utRpc 3748 0 0 0 0 2).temp ≤ 0) ∧
    queryBody utMonitor 2 (utRpc 3748 0 0 0 0 2) = some (utMonitor, []) ∧
    queryLoop (utRpc 3748 0 0 0 0) [1, 2, 3] utMonitor =
      queryLoop (utRpc 3748 0 0 0 0)
        ([1, 2, 3].filter (fun i => decide (i ≠ 2))) utMonitor ∧
    querySubSystems utMonitor (utRpc 3748 0 0 0 0) =
      queryLoop (utRpc 3748 0 0 0 0)
        (utMonitor.subSystemIds.filter (fun i => decide (i ≠ 2))) utMonitor :=
  ⟨Or.inr (by decide),
    invalid_reading_is_skipped utMonitor 2 (utRpc 3748 0 0 0 0) [1, 2, 3]
      (Or.inr (by decide))⟩

/-- C9: the code does not keep what the claim says. The flag sequence of the destructor
does end with the gate flag `tempThreadRun` true and the lifecycle flag
`tempThreadKeepAlive` false, but the loop can be left blocked: when the poll thread has found
the wait predicate false and the destructor runs `stop()`, the store and `start()` before
the thread is asleep, the `notify_one` of `start()` wakes nobody, the thread then sleeps with
gate true and lifecycle false, `join()` waits for it, and neither can move again. When the
thread is already asleep before the destructor starts, the same steps do wake it and the
destructor returns. -/
theorem shutdown_can_leave_poll_loop_blocked :
    (∃ s, runSchedule (utRpc 0 0 0 0 0)
        [Actor.pollThread, Actor.pollThread, Actor.destructor, Actor.destructor,
          Actor.destructor, Actor.destructor, Actor.pollThread] utTeardown = some s ∧
      s.mon = dtorFlags utTeardown.mon ∧
      s.mon.tempThreadRun = true ∧ s.mon.tempThreadKeepAlive = false ∧
      s.thread = ThreadPc.asleep ∧ s.dtor = DtorPc.join ∧
      threadStep (utRpc 0 0 0 0 0) s = none ∧ dtorStep s = none) ∧
    (∃ s, runSchedule (utRpc 0 0 0 0 0)
        [Actor.pollThread, Actor.pollThread, Actor.pollThread, Actor.destructor,
          Actor.destructor, Actor.destructor, Actor.destructor, Actor.pollThread,
          Actor.pollThread, Actor.destructor] utTeardown = some s ∧
      s.thread = ThreadPc.exited ∧ s.dtor = DtorPc.done) :=
  ⟨⟨{ mon := dtorFlags utTeardown.mon, thread := ThreadPc.asleep, dtor := DtorPc.join },
      by decide, rfl, by decide, by decide, rfl, rfl, by decide, by decide⟩,
    ⟨{ mon := dtorFlags utTeardown.mon, thread := ThreadPc.exited, dtor := DtorPc.done },
      by decide, rfl, rfl⟩⟩

/-- C10: in every reachable state a scan completes for every answer of the subsystems, that
is, no call of `updateCurMaxTemp` in it meets an empty `curTemps` (the only case where
`updateCurMaxTemp` has no result); in particular `curTemps` is non-empty after
`updateTempTables` on any accepted reading, also when the reading equals the stored value
and `updateTempTables` changes nothing. -/
theorem updateCurMaxTemp_never_on_empty_set (m : TempMonitor) (hm : Reachable m)
    (rpc : SubSystemId → Reading) :
    (∃ m1 log, querySubSystems m rpc = some (m1, log)) ∧
    (∀ m0 : TempMonitor, updateCurMaxTemp m0 = none ↔ m0.curTemps = []) ∧
    (∀ ssid ∈ m.subSystemIds, ∀ temp : Temp, 0 < temp →
      (updateTempTables m ssid temp).1.curTemps ≠ []) ∧
    (∀ ssid ∈ m.subSystemIds, ∀ temp : Temp, 0 < temp →
      mapFind ssid m.subSystemTemps = some temp →
        updateTempTables m ssid temp = (m, []) ∧ m.curTemps ≠ []) := by
  have hi := inv_of_reachable hm
  obtain ⟨m1, log, hq, _, _⟩ := querySubSystems_inv hi rpc
  refine ⟨⟨m1, log, hq⟩, updateCurMaxTemp_none_iff, ?_, ?_⟩
  · intro ssid hs temp ht
    exact (tablesAfter_updateTempTables hi hs ht).nonempty
  · intro ssid hs temp ht hfind
    have hne := (tablesAfter_updateTempTables hi hs ht).nonempty
    rw [updateTempTables_same hfind] at hne
    exact ⟨updateTempTables_same hfind, hne⟩

theorem updateCurMaxTemp_never_on_empty_set_witness :
    Reachable utMonitorAt40 ∧
    (∃ m1 log, querySubSystems utMonitorAt40 (utRpc 3748 3700 3700 3700 7500)
      = some (m1, log)) ∧
    (∀ m0 : TempMonitor, updateCurMaxTemp m0 = none ↔ m0.curTemps = []) ∧
    (∀ ssid ∈ utMonitorAt40.subSystemIds, ∀ temp : Temp, 0 < temp →
      (updateTempTables utMonitorAt40 ssid temp).1.curTemps ≠ []) ∧
    (∀ ssid ∈ utMonitorAt40.subSystemIds, ∀ temp : Temp, 0 < temp →
      mapFind ssid utMonitorAt40.subSystemTemps = some temp →
        updateTempTables utMonitorAt40 ssid temp = (utMonitorAt40, []) ∧
        utMonitorAt40.curTemps ≠ []) :=
  ⟨utMonitorAt40_reachable,
    updateCurMaxTemp_never_on_empty_set utMonitorAt40 utMonitorAt40_reachable
      (utRpc 3748 3700 3700 3700 7500)⟩

/-- C6: in every reachable state, a scan in which every subsystem fails, gives a value
that is not positive, or gives again the value stored for it in `subSystemTemps` returns
the state unchanged with an empty log (no call on a listener, none on the per-reading
observer). `stop()` then `start()` only sets the gate flag: the paused thread stays in its
wait, and the scan after `start()` again changes and logs nothing. -/
theorem repeated_readings_change_nothing (m : TempMonitor) (hm : Reachable m)
    (rpc : SubSystemId → Reading)
    (h : ∀ k ∈ m.subSystemIds, (rpc k).ok = false ∨ (rpc k).temp ≤ 0 ∨
      mapFind k m.subSystemTemps = some (rpc k).temp) :
    querySubSystems m rpc = some (m, []) ∧
    (start (stop m).1).1 = { m with tempThreadRun := true } ∧
    resumeWait (stop m).1 rpc = ThreadStep.blocked ∧
    querySubSystems (start (stop m).1).1 rpc = some ((start (stop m).1).1, []) := by
  have hv : ∀ k ∈ m.subSystemIds, (rpc k).valid = false ∨
      mapFind k m.subSystemTemps = some (rpc k).temp := by
    intro k hk
    rcases h k hk with h1 | h1 | h1
    · left; simp [Reading.valid, h1]
    · left; simp [Reading.valid, not_lt.mpr h1]
    · exact Or.inr h1
  refine ⟨queryLoop_unchanged (inv_of_reachable hm) rpc _ hv, rfl, ?_, ?_⟩
  · simp [resumeWait, stop]
  · exact queryLoop_unchanged (inv_of_reachable (Reachable.start (Reachable.stop hm))) rpc _ hv

theorem repeated_readings_change_nothing_witness :
    Reachable utMonitorAt40 ∧
    (∀ k ∈ utMonitorAt40.subSystemIds,
      (utRpc 3748 4000 3700 3700 0 k).ok = false ∨ (utRpc 3748 4000 3700 3700 0 k).temp ≤ 0 ∨
      mapFind k utMonitorAt40.subSystemTemps = some (utRpc 3748 4000 3700 3700 0 k).temp) ∧
    querySubSystems utMonitorAt40 (utRpc 3748 4000 3700 3700 0) = some (utMonitorAt40, []) ∧
    (start (stop utMonitorAt40).1).1 = { utMonitorAt40 with tempThreadRun := true } ∧
    resumeWait (stop utMonitorAt40).1 (utRpc 3748 4000 3700 3700 0) = ThreadStep.blocked ∧
    querySubSystems (start (stop utMonitorAt40).1).1 (utRpc 3748 4000 3700 3700 0) =
      some ((start (stop utMonitorAt40).1).1, []) :=
  ⟨utMonitorAt40_reachable, by decide,
    repeated_readings_change_nothing utMonitorAt40 utMonitorAt40_reachable
      (utRpc 3748 4000 3700 3700 0) (by decide)⟩

/-- C8: in every reachable state `curTemps` is, as a multiset, the values stored in
`subSystemTemps`, one per entry, the entries have distinct subsystem ids, and so `curTemps`
has as many elements as the table has entries. When two subsystems `a` and `b` hold the same
temperature `t` and `a` is given another accepted value, `updateTempTables` removes exactly
one occurrence of `t` from `curTemps`; the entry of `b` and its occurrence remain, and
`curTemps` is again the multiset of the table. -/
theorem curTemps_is_multiset_of_table (m : TempMonitor) (hm : Reachable m) :
    (m.curTemps : Multiset Temp) = (tableValues m : Multiset Temp) ∧
    (m.subSystemTemps.map Prod.fst).Nodup ∧
    m.curTemps.length = m.subSystemTemps.length ∧
    (∀ a b : SubSystemId, ∀ t t2 : Temp, a ≠ b → a ∈ m.subSystemIds →
      mapFind a m.subSystemTemps = some t → mapFind b m.subSystemTemps = some t →
      0 < t2 → t2 ≠ t →
        (updateTempTables m a t2).1.curTemps.count t + 1 = m.curTemps.count t ∧
        mapFind b (updateTempTables m a t2).1.subSystemTemps = some t ∧
        t ∈ (updateTempTables m a t2).1.curTemps ∧
        ((updateTempTables m a t2).1.curTemps : Multiset Temp) =
          (tableValues (updateTempTables m a t2).1 : Multiset Temp)) := by
  have hi := inv_of_reachable hm
  refine ⟨Multiset.coe_eq_coe.mpr hi.perm, hi.keys, ?_, ?_⟩
  · rw [hi.perm.length_eq, tableValues, List.length_map]
  · intro a b t t2 hab ha hfa hfb ht2 hne
    have ta := tablesAfter_updateTempTables hi ha ht2
    have hb1 : mapFind b (updateTempTables m a t2).1.subSystemTemps = some t :=
      (ta.others b (Ne.symm hab)).trans hfb
    have hmem : t ∈ m.curTemps :=
      hi.perm.mem_iff.mpr (List.mem_map.mpr ⟨(a, t), mem_of_mapFind hfa, rfl⟩)
    refine ⟨?_, hb1, ?_, Multiset.coe_eq_coe.mpr ta.perm⟩
    · rw [updateTempTables_changed hfa (Ne.symm hne), multisetEraseOne_present hmem]
      dsimp only [multisetInsert]
      rw [(List.perm_orderedInsert (· ≤ ·) t2 (m.curTemps.erase t)).count_eq,
        List.count_cons_of_ne (Ne.symm hne), List.count_erase_self]
      have hpos : 0 < m.curTemps.count t := List.count_pos_iff.mpr hmem
      omega
    · exact ta.perm.mem_iff.mpr (List.mem_map.mpr ⟨(b, t), mem_of_mapFind hb1, rfl⟩)

theorem curTemps_is_multiset_of_table_witness :
    Reachable utMonitorAt40 ∧
    (utMonitorAt40.curTemps : Multiset Temp) = (tableValues utMonitorAt40 : Multiset Temp) ∧
    (utMonitorAt40.subSystemTemps.map Prod.fst).Nodup ∧
    utMonitorAt40.curTemps.length = utMonitorAt40.subSystemTemps.length ∧
    (∀ a b : SubSystemId, ∀ t t2 : Temp, a ≠ b → a ∈ utMonitorAt40.subSystemIds →
      mapFind a utMonitorAt40.subSystemTemps = some t →
      mapFind b utMonitorAt40.subSystemTemps = some t →
      0 < t2 → t2 ≠ t →
        (updateTempTables utMonitorAt40 a t2).1.curTemps.count t + 1 =
          utMonitorAt40.curTemps.count t ∧
        mapFind b (updateTempTables utMonitorAt40 a t2).1.subSystemTemps = some t ∧
        t ∈ (updateTempTables utMonitorAt40 a t2).1.curTemps ∧
        ((updateTempTables utMonitorAt40 a t2).1.curTemps : Multiset Temp) =
          (tableValues (updateTempTables utMonitorAt40 a t2).1 : Multiset Temp)) :=
  ⟨utMonitorAt40_reachable, curTemps_is_multiset_of_table utMonitorAt40 utMonitorAt40_reachable⟩

/-- C5: in a reachable state where subsystem `s` alone holds the current maximum, a scan
in which `s` gives an accepted value below its stored one and every other subsystem fails,
gives a value that is not positive, or gives its stored value again, overwrites the entry of
`s` and nothing else, ends with `curMaxTemp` equal to the greatest value of the table after
the overwrite, which is below the old maximum, and runs `notifyNewMaxTemp` exactly once,
with that value, which every registered listener receives exactly once. -/
theorem overwriting_unique_maximum_falls_back (m : TempMonitor) (hm : Reachable m)
    (rpc : SubSystemId → Reading) (s : SubSystemId)
    (hs : mapFind s m.subSystemTemps = some m.curMaxTemp)
    (huniq : ∀ k, k ≠ s → mapFind k m.subSystemTemps ≠ some m.curMaxTemp)
    (hother : ∃ k, k ≠ s ∧ mapFind k m.subSystemTemps ≠ none)
    (hlow : (rpc s).ok = true ∧ 0 < (rpc s).temp ∧ (rpc s).temp < m.curMaxTemp)
    (hrest : ∀ k ∈ m.subSystemIds, k ≠ s → (rpc k).ok = false ∨ (rpc k).temp ≤ 0 ∨
      mapFind k m.subSystemTemps = some (rpc k).temp) :
    ∃ m1 log, querySubSystems m rpc = some (m1, log) ∧
      m1.subSystemTemps = mapAssign s (rpc s).temp m.subSystemTemps ∧
      m1.curMaxTemp ∈ tableValues m1 ∧
      (∀ t ∈ tableValues m1, t ≤ m1.curMaxTemp) ∧
      m1.curMaxTemp < m.curMaxTemp ∧
      notifications log = [m1.curMaxTemp] ∧
      (∀ l ∈ m.listeners, delivered l log = [m1.curMaxTemp]) := by
  have hi := inv_of_reachable hm
  have hsid : s ∈ m.subSystemIds := hi.known _ (mem_of_mapFind hs)
  have hvalid : (rpc s).valid = true := by simp [Reading.valid, hlow.1, hlow.2.1]
  have hv : ∀ k ∈ m.subSystemIds, k ≠ s → (rpc k).valid = false ∨
      mapFind k m.subSystemTemps = some (rpc k).temp := by
    intro k hk hks
    rcases hrest k hk hks with h1 | h1 | h1
    · left; simp [Reading.valid, h1]
    · left; simp [Reading.valid, not_lt.mpr h1]
    · exact Or.inr h1
  obtain ⟨m1, log1, hb, hi1, hf1⟩ := queryBody_inv hi hsid (rpc s)
  have hloop := queryLoop_single hi rpc hsid hb m.subSystemIds hsid hv
  have tb := queryBody_table hi hsid hb
  have bl := queryBody_log hb
  have hne1 : m1.subSystemTemps ≠ [] := by
    intro he
    have := tb.1 hvalid
    rw [he] at this
    simp [mapFind] at this
  have hmax1 := (inv_curMaxTemp hi1).2 hne1
  have hold := (inv_curMaxTemp hi).2 (List.ne_nil_of_mem (mem_of_mapFind hs))
  have hlt : m1.curMaxTemp < m.curMaxTemp := by
    obtain ⟨k, hk⟩ := (mem_tableValues_iff hi1 _).mp hmax1.1
    by_cases hks : k = s
    · subst hks
      rw [tb.1 hvalid] at hk
      have hk2 : (rpc k).temp = m1.curMaxTemp := Option.some.inj hk
      rw [← hk2]
      exact hlow.2.2
    · rw [tb.2.1 k hks] at hk
      have hle := hold.2 _ ((mem_tableValues_iff hi _).mpr ⟨k, hk⟩)
      have hneq : m1.curMaxTemp ≠ m.curMaxTemp := by
        intro he
        rw [he] at hk
        exact huniq k hks hk
      exact lt_of_le_of_ne hle hneq
  have hnot : notifications log1 = [m1.curMaxTemp] := by
    rcases bl.rounds with ⟨_, hc⟩ | ⟨hn, _, _⟩
    · exact absurd hc (ne_of_lt hlt)
    · exact hn
  have htbl : m1.subSystemTemps = mapAssign s (rpc s).temp m.subSystemTemps := by
    have hne : m.curMaxTemp ≠ (rpc s).temp := ne_of_gt hlow.2.2
    have ta := tablesAfter_updateTempTables hi hsid hlow.2.1
    obtain ⟨v, hv2⟩ := exists_getLast_of_ne_nil ta.nonempty
    have hb2 := queryBody_accepted hvalid hv2
    rw [hb] at hb2
    simp only [Option.some.injEq, Prod.mk.injEq] at hb2
    rw [hb2.1]
    show (updateTempTables m s (rpc s).temp).1.subSystemTemps = _
    rw [updateTempTables_changed hs hne]
  refine ⟨m1, log1, hloop, htbl, hmax1.1, hmax1.2, hlt, hnot, ?_⟩
  intro l hl
  rw [bl.registered l hl, hnot]

theorem overwriting_unique_maximum_falls_back_witness :
    Reachable utMonitorAt40 ∧
    ∃ m1 log, querySubSystems utMonitorAt40 (utRpc 3748 3700 3700 3700 0) = some (m1, log) ∧
      m1.subSystemTemps = mapAssign 2 (utRpc 3748 3700 3700 3700 0 2).temp
        utMonitorAt40.subSystemTemps ∧
      m1.curMaxTemp ∈ tableValues m1 ∧
      (∀ t ∈ tableValues m1, t ≤ m1.curMaxTemp) ∧
      m1.curMaxTemp < utMonitorAt40.curMaxTemp ∧
      notifications log = [m1.curMaxTemp] ∧
      (∀ l ∈ utMonitorAt40.listeners, delivered l log = [m1.curMaxTemp]) :=
  ⟨utMonitorAt40_reachable,
    overwriting_unique_maximum_falls_back utMonitorAt40 utMonitorAt40_reachable
      (utRpc 3748 3700 3700 3700 0) 2 (by decide)
      (by
        intro k hk hf
        have hmem := mem_of_mapFind hf
        simp [utMonitorAt40] at hmem
        exact hk hmem)
      ⟨1, by decide, by decide⟩ (by decide) (by decide)⟩

/-- C2, as the claim states it, fails: in the test monitor, a scan in which subsystem 1
answers 37.00 and subsystem 2 answers 37.48 runs `notifyNewMaxTemp` twice, and the first
round carries 37.00, which is not the maximum 37.48 of the table after the scan. -/
theorem notification_once_after_scan_counterexample :
    Reachable utMonitor ∧
    ∃ m1 log, querySubSystems utMonitor (utRpc 3700 3748 0 0 0) = some (m1, log) ∧
      notifications log = [3700, 3748] ∧ delivered 100 log = [3700, 3748] ∧
      ¬ (notifications log).length ≤ 1 ∧
      m1.curMaxTemp = 3748 ∧ ¬ (∀ t ∈ notifications log, t = m1.curMaxTemp) :=
  ⟨utMonitor_reachable,
    { subSystemIds := [1, 2, 3, 4, 5]
      uiUpdater := false
      subSystemTemps := [(1, 3700), (2, 3748)]
      curTemps := [3700, 3748]
      curMaxTemp := 3748
      tempThreadKeepAlive := true
      tempThreadRun := false
      listeners := [100] },
    [Event.notifyNewMaxTemp [100] 3700, Event.notifyNewMaxTemp [100] 3748],
    by decide, by decide, by decide, by decide, by decide, by decide⟩

/-- C2, amended: in every reachable state a scan completes and runs `notifyNewMaxTemp` at
most once for each accepted reading of the scan (not at most once in the scan); every
registered listener receives exactly these rounds; when there is none `curMaxTemp` is as
before the scan, and when there is one the last round carries the `curMaxTemp` the scan
ends with, the greatest value of the table after the whole scan. Each pass of the loop body
runs `notifyNewMaxTemp` at most once, only for an accepted reading, and then with the
greatest value of the table as it stands after that pass. -/
theorem notification_after_each_changed_maximum (m : TempMonitor) (hm : Reachable m)
    (rpc : SubSystemId → Reading) :
    ∃ m1 log, querySubSystems m rpc = some (m1, log) ∧
      (notifications log).length ≤ (m.subSystemIds.filter (fun i => (rpc i).valid)).length ∧
      (∀ l ∈ m.listeners, delivered l log = notifications log) ∧
      (notifications log = [] → m1.curMaxTemp = m.curMaxTemp) ∧
      (notifications log ≠ [] →
        (notifications log).getLast? = some m1.curMaxTemp ∧
        m1.curMaxTemp ∈ tableValues m1 ∧ ∀ t ∈ tableValues m1, t ≤ m1.curMaxTemp) ∧
      (∀ ssid ∈ m.subSystemIds, ∀ r : Reading,
        ∃ m2 log2, queryBody m ssid r = some (m2, log2) ∧
          (notifications log2 = [] ∨
            (r.valid = true ∧ notifications log2 = [m2.curMaxTemp] ∧
              m2.curMaxTemp ∈ tableValues m2 ∧ ∀ t ∈ tableValues m2, t ≤ m2.curMaxTemp))) := by
  have hi := inv_of_reachable hm
  obtain ⟨m1, log, hq, hi1, _⟩ := querySubSystems_inv hi rpc
  have ll := queryLoop_log rpc m.subSystemIds m m1 log hq
  have htab := queryLoop_table rpc m.subSystemIds m m1 log hi (fun _ h => h) hq
  refine ⟨m1, log, hq, ll.count, ll.registered, ?_, ?_, ?_⟩
  · intro hnil
    rcases ll.last with ⟨_, hc⟩ | hl
    · exact hc
    · rw [hnil] at hl
      cases hl
  · intro hne
    have hne1 : m1.subSystemTemps ≠ [] := by
      intro he
      apply hne
      have hfil : m.subSystemIds.filter (fun i => (rpc i).valid) = [] := by
        rw [List.filter_eq_nil_iff]
        intro i hmem hv
        have h1 := htab i
        rw [if_pos ⟨hmem, hv⟩, he] at h1
        simp [mapFind] at h1
      have hc := ll.count
      rw [hfil] at hc
      exact List.length_eq_zero.mp (Nat.le_zero.mp hc)
    refine ⟨?_, (inv_curMaxTemp hi1).2 hne1⟩
    rcases ll.last with ⟨hnil, _⟩ | hl
    · exact absurd hnil hne
    · exact hl
  · intro ssid hs r
    obtain ⟨m2, log2, hb, hi2, _⟩ := queryBody_inv hi hs r
    refine ⟨m2, log2, hb, ?_⟩
    rcases (queryBody_log hb).rounds with ⟨hn, _⟩ | ⟨hn, _, hv⟩
    · exact Or.inl hn
    · right
      have hne2 : m2.subSystemTemps ≠ [] := by
        intro he
        have h1 := (queryBody_table hi hs hb).1 hv
        rw [he] at h1
        simp [mapFind] at h1
      exact ⟨hv, hn, (inv_curMaxTemp hi2).2 hne2⟩

theorem notification_after_each_changed_maximum_witness :
    Reachable utMonitor ∧
    ∃ m1 log, querySubSystems utMonitor (utRpc 3700 3748 0 0 0) = some (m1, log) ∧
      (notifications log).length ≤
        (utMonitor.subSystemIds.filter (fun i => (utRpc 3700 3748 0 0 0 i).valid)).length ∧
      (∀ l ∈ utMonitor.listeners, delivered l log = notifications log) ∧
      (notifications log = [] → m1.curMaxTemp = utMonitor.curMaxTemp) ∧
      (notifications log ≠ [] →
        (notifications log).getLast? = some m1.curMaxTemp ∧
        m1.curMaxTemp ∈ tableValues m1 ∧ ∀ t ∈ tableValues m1, t ≤ m1.curMaxTemp) ∧
      (∀ ssid ∈ utMonitor.subSystemIds, ∀ r : Reading,
        ∃ m2 log2, queryBody utMonitor ssid r = some (m2, log2) ∧
          (notifications log2 = [] ∨
            (r.valid = true ∧ notifications log2 = [m2.curMaxTemp] ∧
              m2.curMaxTemp ∈ tableValues m2 ∧ ∀ t ∈ tableValues m2, t ≤ m2.curMaxTemp))) :=
  ⟨utMonitor_reachable,
    notification_after_each_changed_maximum utMonitor utMonitor_reachable
      (utRpc 3700 3748 0 0 0)⟩

/-- C4: for a freshly constructed monitor with listener `l` registered before the first
scan, and every finite sequence of scans: the scans complete, the table holds for each
subsystem its most recent valid reading, and as soon as some subsystem has given a valid
reading the last value delivered to `l` is the greatest of these most recent valid
readings. -/
theorem last_delivered_is_maximum_of_latest_readings (ssIds : List SubSystemId)
    (updater : Bool) (l : Listener) (scans : List (SubSystemId → Reading)) :
    ∃ m log, runScans (registerListener (TempMonitor.ctor ssIds updater) l).1 scans
        = some (m, log) ∧
      (∀ i, mapFind i m.subSystemTemps = lastValidReading ssIds scans i) ∧
      ((∃ i, lastValidReading ssIds scans i ≠ none) →
        ∃ v, (delivered l log).getLast? = some v ∧
          (∃ i, lastValidReading ssIds scans i = some v) ∧
          ∀ i t, lastValidReading ssIds scans i = some t → t ≤ v) := by
  have hm0 : Reachable (registerListener (TempMonitor.ctor ssIds updater) l).1 :=
    Reachable.registerListener l (Reachable.ctor ssIds updater)
  have hi0 := inv_of_reachable hm0
  obtain ⟨m, log, hrun, hi, _⟩ := runScans_inv scans _ hi0
  have htab : ∀ i, mapFind i m.subSystemTemps = lastValidReading ssIds scans i := by
    intro i
    have h1 := runScans_table scans _ m log hi0 hrun i
    rw [registerListener_ctor] at h1
    rw [h1]
    show (match lastValidReading ssIds scans i with
      | some t => some t
      | none => mapFind i []) = _
    cases lastValidReading ssIds scans i <;> rfl
  have hnot : Notified m ([] ++ log) := by
    apply runScans_notified scans _ m log [] hi0 hrun
    left
    rw [registerListener_ctor]
    exact ⟨rfl, rfl⟩
  have hdel : delivered l log = notifications log := by
    apply (runScans_log scans _ m log hrun).2 l
    rw [registerListener_ctor]
    simp
  refine ⟨m, log, hrun, htab, ?_⟩
  rintro ⟨i, hsome⟩
  have hne : m.subSystemTemps ≠ [] := by
    intro he
    apply hsome
    rw [← htab i, he]
    rfl
  have hmax := (inv_curMaxTemp hi).2 hne
  refine ⟨m.curMaxTemp, ?_, ?_, ?_⟩
  · rw [hdel]
    rcases hnot with ⟨he, _⟩ | hl
    · exact absurd he hne
    · exact hl
  · obtain ⟨k, hk⟩ := (mem_tableValues_iff hi _).mp hmax.1
    exact ⟨k, (htab k).symm.trans hk⟩
  · intro j t hj
    exact hmax.2 t ((mem_tableValues_iff hi t).mpr ⟨j, (htab j).trans hj⟩)

/-- C4, the scenario of the unit test: five subsystems; subsystem 1 at 37.48, then
subsystems 2, 3 and 4 at 37.00, subsystem 2 at 40.00, subsystem 2 back at 37.00 and
subsystem 5 at 75.00 deliver 37.48, 37.48, 37.48, 37.48, 40.00, 37.48 and 75.00 as last
value. -/
theorem last_delivered_is_maximum_of_latest_readings_scenario :
    (∃ m log, runScans (registerListener (TempMonitor.ctor [1, 2, 3, 4, 5] false) 100).1
        utScans = some (m, log) ∧
      (∀ i, mapFind i m.subSystemTemps = lastValidReading [1, 2, 3, 4, 5] utScans i) ∧
      ((∃ i, lastValidReading [1, 2, 3, 4, 5] utScans i ≠ none) →
        ∃ v, (delivered 100 log).getLast? = some v ∧
          (∃ i, lastValidReading [1, 2, 3, 4, 5] utScans i = some v) ∧
          ∀ i t, lastValidReading [1, 2, 3, 4, 5] utScans i = some t → t ≤ v)) ∧
    (List.range 8).map (fun n =>
      (runScans (registerListener (TempMonitor.ctor [1, 2, 3, 4, 5] false) 100).1
        (utScans.take n)).map (fun p => ((delivered 100 p.2).getLast?, p.1.curMaxTemp))) =
      [some (none, 0), some (some 3748, 3748), some (some 3748, 3748),
        some (some 3748, 3748), some (some 3748, 3748), some (some 4000, 4000),
        some (some 3748, 3748), some (some 7500, 7500)] :=
  ⟨last_delivered_is_maximum_of_latest_readings [1, 2, 3, 4, 5] false 100 utScans, by decide⟩

end FanControl
